import Mathlib

/-!
Verification development for the megaship-movement tracker
(`src/eddn_listener.py`, `src/utils/cmdr_tracker.py`).

Modelling conventions, shared by every definition below:

* ISO-8601 timestamp strings are modelled as integer seconds (`Ts := Int`).
  The source parses them with `datetime.fromisoformat` and compares either
  the parsed times (`total_seconds()`, signed) or the raw strings
  (equality); for canonical ISO strings both agree with integer seconds.
* Python `dict`s are modelled as insertion-ordered association lists
  (`alGet` / `alSet` / `alUpd` / `alErase` mirror lookup, assignment,
  in-place value update and `del`); iteration order is list order, as for
  Python dicts.  Composite string keys such as `"A->B"`,
  `"uploader->system"` and `"ship_system"` are modelled as pairs (the
  source only ever builds and splits them on the separator; star-system
  names and uploader ids contain no separator).
* The `tracked_systems` per-ship status field holds either the sentinel
  strings `"NOT DETECTED"` / `"SIGNAL MISSING"` or an ISO timestamp
  string; it is modelled by the tagged type `SigStatus` (the source
  detects the timestamp case via `"T" in s`, true exactly for ISO
  timestamp strings).
* `eddn_listener.py` (lines 33-40) initialises the `"commanders"` field
  as `set()` and nothing ever replaces it with a number, while every
  arithmetic site in `cmdr_tracker.py` (lines 76, 284, 329, 364) assumes
  an `int` and raises `TypeError` on the set.  The field is modelled by
  the tagged type `Cmdr` (`pyset` / `pyint`), the arithmetic by
  `Option`-valued operations whose `none` is the `TypeError`, and the
  exception by a raise flag threaded through `process_fsd_jump` up to the
  dispatcher's catch; state mutated and events delivered before the raise
  persist, everything after it is skipped.
* Fire-and-forget push notifications (`send_ship_appeared`,
  `send_ship_jumped`) are modelled as emitted `Notif` values.
-/

/-- Timestamps in integer seconds. -/
abbrev Ts := Int

/-- Per-ship, per-system status stored in a tracked-system entry. -/
inductive SigStatus where
  | notDetected
  | signalMissing
  | ts (t : Ts)
  deriving DecidableEq, Repr

/-- The source test `s not in ["NOT DETECTED", "SIGNAL MISSING"] and "T" in s`:
true exactly for stored ISO timestamp strings. -/
def SigStatus.isTimestamp : SigStatus → Bool
  | .ts _ => true
  | _ => false

/-- A cached NavRoute (`recent_navroutes` value). -/
structure NavRoute where
  fromSystem : String
  toSystem : String
  timestamp : Ts
  deriving DecidableEq, Repr

/-- A pending-departure entry. -/
structure Dep where
  timestamp : Ts
  processed : Bool
  uploader : String
  deriving DecidableEq, Repr

/-- The Python value stored under the `"commanders"` key of a tracked
system: `eddn_listener.py:33-40` initialises it to `set()` and nothing
ever replaces it with a number, while the tracker's arithmetic assumes an
`int`.  `pyint` is the integer that arithmetic would maintain. -/
inductive Cmdr where
  | pyset
  | pyint (n : Int)
  deriving DecidableEq, Repr

/-- `tracked_systems[…].get("commanders", 0) + 1` (cmdr_tracker.py:284);
`none` is the `TypeError` raised when the stored value is `set()`. -/
def Cmdr.plusOne : Cmdr → Option Int
  | .pyint n => some (n + 1)
  | .pyset => none

/-- `max(0, tracked_systems[…].get("commanders", 0) - 1)`
(cmdr_tracker.py lines 76, 329 and 364); `none` is the `TypeError` raised
when the stored value is `set()`. -/
def Cmdr.minusOneClamp : Cmdr → Option Int
  | .pyint n => some (max 0 (n - 1))
  | .pyset => none

/-- One entry of the listener's `tracked_systems` dict.  The per-ship
status keys `"Cygnus"` / `"The Orion"` become the two status fields. -/
structure TrackedSystem where
  address : Nat
  commanders : Cmdr
  jumpsTo : Nat
  jumpsFrom : Nat
  fleetCarriers : Nat
  cygnus : SigStatus
  orion : SigStatus
  deriving DecidableEq, Repr

/-- The two tracked megaship names, in source order. -/
def shipNames : List String := ["Cygnus", "The Orion"]

/-- `tracked_systems[system].get(name, "NOT DETECTED")` for the per-ship keys. -/
def TrackedSystem.getShip (t : TrackedSystem) (name : String) : SigStatus :=
  if name = "Cygnus" then t.cygnus
  else if name = "The Orion" then t.orion
  else .notDetected

/-- `tracked_systems[system][name] = v`; only ever called with the two
tracked ship names. -/
def TrackedSystem.setShip (t : TrackedSystem) (name : String) (v : SigStatus) : TrackedSystem :=
  if name = "Cygnus" then { t with cygnus := v }
  else if name = "The Orion" then { t with orion := v }
  else t

/-- Entry of the listener's `megaships` dict. -/
structure MegashipInfo where
  lastSeen : Option Ts
  system : Option String
  systemAddress : Option Nat
  sigType : Option String
  status : String
  lastChecked : Option Ts
  previousDetection : Option SigStatus
  deriving DecidableEq, Repr

/-- One signal of an FSSSignalDiscovered message. -/
structure Signal where
  name : String
  sigType : String
  timestamp : Option Ts
  deriving DecidableEq, Repr

/-- Decoded message body (`data["message"]`); fields the three handlers read.
Absent `StarSystem` is the falsy `""`, absent `SystemAddress` the falsy `0`. -/
structure MsgBody where
  event : Option String := none
  starSystem : String := ""
  systemAddress : Nat := 0
  timestamp : Option Ts := none
  signals : List Signal := []
  route : List String := []
  deriving DecidableEq, Repr

/-- EDDN header fields the dispatcher reads. -/
structure Header where
  uploaderID : String
  softwareName : String
  deriving DecidableEq, Repr

/-- A decoded EDDN message. `message = none` models the falsy empty body. -/
structure RawMessage where
  schemaRef : String
  message : Option MsgBody
  header : Header
  deriving DecidableEq, Repr

/-- Events handed to `handle_event` / the NavRoute callback, one
constructor per emitted dict shape. -/
inductive Event where
  | megaship (name system : String) (systemAddress : Nat) (sigType status : String)
      (timestamp : Ts) (isIrregular : Bool)
  | megashipMissing (name system : String) (systemAddress : Nat) (timestamp : Ts)
      (previousDetection : SigStatus)
  | plannedDeparture (system destination : String) (timestamp : Ts) (uploader : String)
  | plannedArrival (system origin : String) (timestamp : Ts) (uploader : String)
  | arrivedEv (action system : String) (commanderCount : Int) (timestamp : Ts) (uploader : String)
  | departedEv (system : String) (commanderCount : Int) (timestamp : Ts) (uploader : String)
  | departedTimeout (system destination : String) (commanderCount : Int) (timestamp : Ts)
  deriving DecidableEq, Repr

/-- Push-notification triggers. -/
inductive Notif where
  | shipAppeared (ship system : String) (timestamp : Ts)
  | shipJumped (ship system : String) (timestamp : Ts)
  deriving DecidableEq, Repr

/-! ### Association-list model of Python dicts -/

/-- Dict lookup (`d.get(k)` / `k in d`). -/
def alGet {α β : Type} [DecidableEq α] : List (α × β) → α → Option β
  | [], _ => none
  | (a, b) :: t, k => if a = k then some b else alGet t k

/-- Dict assignment `d[k] = v`: replace in place, else append. -/
def alSet {α β : Type} [DecidableEq α] : List (α × β) → α → β → List (α × β)
  | [], k, v => [(k, v)]
  | (a, b) :: t, k, v => if a = k then (k, v) :: t else (a, b) :: alSet t k v

/-- In-place update of the value stored at `k` (no-op if absent). -/
def alUpd {α β : Type} [DecidableEq α] : List (α × β) → α → (β → β) → List (α × β)
  | [], _, _ => []
  | (a, b) :: t, k, f => if a = k then (a, f b) :: t else (a, b) :: alUpd t k f

/-- `del d[k]`. -/
def alErase {α β : Type} [DecidableEq α] (m : List (α × β)) (k : α) : List (α × β) :=
  m.filter (fun p => decide (p.1 ≠ k))

/-- Pointwise update of a function-modelled map. -/
def upd {α β : Type} [DecidableEq α] (m : α → β) (k : α) (v : β) : α → β :=
  fun x => if x = k then v else m x

/-- Membership in the `auto_processed_departures` set. -/
def autoMem (l : List (String × Ts)) (k : String × Ts) : Bool :=
  l.any (fun x => decide (x = k))

/-! ### Global state

All mutable state of `EDDNListener` and its `CommanderTracker`. -/

structure St where
  megaships : String → MegashipInfo
  tracked : List (String × TrackedSystem)
  missing : String × String → Option Nat
  prevShipSystems : String → Option String
  signalsChecked : Nat
  fleetCarriersSeen : Nat
  messagesProcessed : Nat
  recentNavroutes : List (String × NavRoute)
  pending : List ((String × String) × List Dep)
  autoProcessed : List (String × Ts)
  recentArrivals : List ((String × String) × Ts)
  recentPlannedArrivals : (String × String) → Option Ts

/-- `tracked_systems[name].get("commanders", 0)`: the stored value, or
the integer default when the system is untracked. -/
def commandersOf (tr : List (String × TrackedSystem)) (name : String) : Cmdr :=
  ((alGet tr name).map (·.commanders)).getD (.pyint 0)

def initMegaship : MegashipInfo :=
  { lastSeen := none, system := none, systemAddress := none, sigType := none,
    status := "NOT DETECTED", lastChecked := none, previousDetection := none }

def initTrackedSystem (addr : Nat) : TrackedSystem :=
  { address := addr, commanders := .pyset, jumpsTo := 0, jumpsFrom := 0, fleetCarriers := 0,
    cygnus := .notDetected, orion := .notDetected }

/-- Initial state of `EDDNListener.__init__` plus `CommanderTracker.__init__`. -/
def initSt : St :=
  { megaships := fun _ => initMegaship,
    tracked :=
      [("Nukamba", initTrackedSystem 1183095788250),
       ("Graffias", initTrackedSystem 17880842853),
       ("Vodyakamana", initTrackedSystem 0),
       ("Marfic", initTrackedSystem 203174184124),
       ("Upaniklis", initTrackedSystem 13862946481609),
       ("HR 6524", initTrackedSystem 83584193298),
       ("Col 359 Sector AE-N b9-4", initTrackedSystem 9463826621993),
       ("HIP 87621", initTrackedSystem 147882789259)],
    missing := fun _ => none,
    prevShipSystems := fun _ => none,
    signalsChecked := 0, fleetCarriersSeen := 0, messagesProcessed := 0,
    recentNavroutes := [], pending := [], autoProcessed := [], recentArrivals := [],
    recentPlannedArrivals := fun _ => none }

/-! ### CommanderTracker -/

/-- `cleanup_old_routes`: drop cached NavRoutes older than 180 s
(signed comparison, as in the source). -/
def cleanupOldRoutes (now : Ts) (nr : List (String × NavRoute)) : List (String × NavRoute) :=
  nr.filter (fun p => decide (now - p.2.timestamp ≤ 180))

/-- Inner loop of `cleanup_old_departures` over one departure list:
auto-resolve every unprocessed entry older than 300 s whose
`(origin, timestamp)` key is not yet in `auto_processed_departures`.  The
final `Bool` is the raise flag: on a tracked origin the decrement at
cmdr_tracker.py:76 raises `TypeError` (`max(0, set() - 1)`) — the auto
key is already recorded, the entry is left unmarked, no event is emitted
and the exception aborts the sweep. -/
def cleanupDeps (now : Ts) (fromSys toSys : String) :
    List Dep → List (String × TrackedSystem) → List (String × Ts) →
      List Dep × List (String × TrackedSystem) × List (String × Ts) × List Event × Bool
  | [], tr, auto => ([], tr, auto, [], false)
  | d :: rest, tr, auto =>
    if d.processed then
      let (l, tr', auto', ev, rz) := cleanupDeps now fromSys toSys rest tr auto
      (d :: l, tr', auto', ev, rz)
    else if 300 < now - d.timestamp then
      if autoMem auto (fromSys, d.timestamp) then
        let (l, tr', auto', ev, rz) := cleanupDeps now fromSys toSys rest tr auto
        (d :: l, tr', auto', ev, rz)
      else
        let auto1 := (fromSys, d.timestamp) :: auto
        if (alGet tr fromSys).isSome then
          match (commandersOf tr fromSys).minusOneClamp with
          | none => (d :: rest, tr, auto1, [], true)
          | some c =>
            let tr1 := alUpd tr fromSys (fun t =>
              { t with commanders := .pyint c, jumpsFrom := t.jumpsFrom + 1 })
            let (l, tr', auto', ev, rz) := cleanupDeps now fromSys toSys rest tr1 auto1
            ({ d with processed := true } :: l, tr', auto',
             Event.departedTimeout fromSys toSys c d.timestamp :: ev, rz)
        else
          let (l, tr', auto', ev, rz) := cleanupDeps now fromSys toSys rest tr auto1
          ({ d with processed := true } :: l, tr', auto', ev, rz)
    else
      let (l, tr', auto', ev, rz) := cleanupDeps now fromSys toSys rest tr auto
      (d :: l, tr', auto', ev, rz)

/-- `cleanup_old_departures`: sweep every pending-departure key; after a
key's list is processed, delete the key if the list is non-empty and all
its entries are processed.  A `TypeError` raised inside the inner loop
propagates: the surviving dict keeps the partially swept list and every
later key untouched, and no key deletion runs. -/
def cleanupPD (now : Ts) :
    List ((String × String) × List Dep) → List (String × TrackedSystem) → List (String × Ts) →
      List ((String × String) × List Dep) × List (String × TrackedSystem) × List (String × Ts) ×
        List Event × Bool
  | [], tr, auto => ([], tr, auto, [], false)
  | (k, deps) :: rest, tr, auto =>
    let (deps', tr1, auto1, ev1, rz1) := cleanupDeps now k.1 k.2 deps tr auto
    if rz1 then ((k, deps') :: rest, tr1, auto1, ev1, true)
    else
      let (rest', tr2, auto2, ev2, rz2) := cleanupPD now rest tr1 auto1
      ((if deps' ≠ [] ∧ deps'.all (·.processed) then [] else [(k, deps')]) ++ rest',
       tr2, auto2, ev1 ++ ev2, rz2)

/-- The removal loop of `process_nav_route`: from every pending key whose
origin is `cur`, drop this uploader's unprocessed entries; delete a key
whose (previously non-empty) list becomes empty. -/
def removeUploaderRoutes (pd : List ((String × String) × List Dep)) (cur u : String) :
    List ((String × String) × List Dep) :=
  pd.filterMap (fun p =>
    if p.1.1 = cur then
      let l := p.2.filter (fun d => decide (¬(d.uploader = u ∧ d.processed = false)))
      if l = [] ∧ p.2 ≠ [] then none else some (p.1, l)
    else some p)

/-- `CommanderTracker.process_nav_route`. -/
def processNavRoute (now : Ts) (st : St) (uploader : Option String) (msg : MsgBody) :
    St × List Event :=
  let timestamp := msg.timestamp.getD now
  match uploader with
  | none => (st, [])
  | some u =>
    if msg.route.length < 2 ∨ u = "" then (st, [])
    else
      let st := { st with recentNavroutes := cleanupOldRoutes now st.recentNavroutes }
      let cur := msg.route.headD ""
      let nxt := (msg.route.drop 1).headD ""
      if cur = "" ∨ nxt = "" then (st, [])
      else
        let st := { st with recentNavroutes := alSet st.recentNavroutes u ⟨cur, nxt, timestamp⟩ }
        let (st, evs) :=
          if (alGet st.tracked cur).isSome then
            let pd := if (alGet st.pending (cur, nxt)).isSome then st.pending
                      else alSet st.pending (cur, nxt) []
            let deps := (alGet pd (cur, nxt)).getD []
            let dup := deps.any (fun d =>
              decide (d.timestamp = timestamp ∨ (d.uploader = u ∧ d.processed = false)))
            if dup then ({ st with pending := pd }, [])
            else
              let pd := removeUploaderRoutes pd cur u
              let pd := alSet pd (cur, nxt) (((alGet pd (cur, nxt)).getD []) ++ [⟨timestamp, false, u⟩])
              ({ st with pending := pd }, [Event.plannedDeparture cur nxt timestamp u])
          else (st, [])
        if (alGet st.tracked nxt).isSome ∧ nxt ≠ cur then
          let dup :=
            match st.recentPlannedArrivals (u, nxt) with
            | some last => decide (timestamp - last < 30)
            | none => false
          if dup then (st, evs)
          else
            ({ st with recentPlannedArrivals := upd st.recentPlannedArrivals (u, nxt) (some timestamp) },
             evs ++ [Event.plannedArrival nxt cur timestamp u])
        else (st, evs)

/-- `f"{uploader_id}->…"` key component: Python renders `None` as `"None"`. -/
def uidStr : Option String → String
  | some u => u
  | none => "None"

/-- `recent_navroutes.get(uploader_id)`. -/
def navLookup (nr : List (String × NavRoute)) : Option String → Option NavRoute
  | some u => alGet nr u
  | none => none

/-- Inner loop of the departure search in `process_fsd_jump`: walk the
departure list, skip processed entries and unprocessed entries already
auto-resolved; mark the first processable entry processed and return it. -/
def procDeps (fromSys : String) (auto : List (String × Ts)) :
    List Dep → Option Dep × List Dep
  | [] => (none, [])
  | d :: rest =>
    if d.processed then
      let (r, l) := procDeps fromSys auto rest
      (r, d :: l)
    else if autoMem auto (fromSys, d.timestamp) then
      let (r, l) := procDeps fromSys auto rest
      (r, d :: l)
    else (some d, { d with processed := true } :: rest)

/-- Departure search of `process_fsd_jump`: for each tracked system (dict
order) look for a pending departure into `sys`; resolve at most one, and
delete every visited key whose list ends up fully processed.  The first
`Bool` is `departure_processed`; the second is the raise flag — the
decrement at cmdr_tracker.py:329 raises `TypeError` after the matched
entry was already marked processed (line 325), so the key's list keeps
the mark, nothing is decremented, no event is emitted, and the key
deletion and the rest of the handler are skipped. -/
def depSearch (auto : List (String × Ts)) (sys : String) (ts : Ts) :
    List String → List ((String × String) × List Dep) → List (String × TrackedSystem) →
      List ((String × String) × List Dep) × List (String × TrackedSystem) × List Event ×
        Bool × Bool
  | [], pd, tr => (pd, tr, [], false, false)
  | f :: rest, pd, tr =>
    match alGet pd (f, sys) with
    | none => depSearch auto sys ts rest pd tr
    | some deps =>
      match procDeps f auto deps with
      | (some d, deps') =>
        match (commandersOf tr f).minusOneClamp with
        | none => (alSet pd (f, sys) deps', tr, [], false, true)
        | some c =>
          let tr' := alUpd tr f (fun t =>
            { t with commanders := .pyint c, jumpsFrom := t.jumpsFrom + 1 })
          let pd' := if deps'.all (·.processed) then alErase pd (f, sys)
                     else alSet pd (f, sys) deps'
          (pd', tr', [Event.departedEv f c ts d.uploader], true, false)
      | (none, deps') =>
        let pd' := if deps'.all (·.processed) then alErase pd (f, sys) else pd
        depSearch auto sys ts rest pd' tr

/-- Departure + fallback phase of `process_fsd_jump`.  A raise from the
departure search propagates immediately; the fallback decrement at
cmdr_tracker.py:364 raises its own `TypeError`, so the fallback departure
event and the NavRoute-cache erase after it never occur. -/
def jumpDepartPhase (timestamp : Ts) (uploader : Option String) (nav : Option NavRoute)
    (sys : String) (st : St) (evs : List Event) : St × List Event × Bool :=
  let keys := st.tracked.map (·.1)
  let r := depSearch st.autoProcessed sys timestamp keys st.pending st.tracked
  let st := { st with pending := r.1, tracked := r.2.1 }
  let evs := evs ++ r.2.2.1
  if r.2.2.2.2 then (st, evs, true)
  else
    match nav with
    | none => (st, evs, false)
    | some route =>
      if r.2.2.2.1 then (st, evs, false)
      else
        if (alGet st.tracked route.fromSystem).isSome ∧ route.fromSystem ≠ sys then
          match (commandersOf st.tracked route.fromSystem).minusOneClamp with
          | none => (st, evs, true)
          | some c =>
            let st2 := { st with tracked := alUpd st.tracked route.fromSystem (fun t =>
              { t with commanders := .pyint c, jumpsFrom := t.jumpsFrom + 1 }) }
            let evs2 := evs ++ [Event.departedEv route.fromSystem c timestamp (uidStr uploader)]
            (match uploader with
             | some u => { st2 with recentNavroutes := alErase st2.recentNavroutes u }
             | none => st2, evs2, false)
        else
          (match uploader with
           | some u => { st with recentNavroutes := alErase st.recentNavroutes u }
           | none => st, evs, false)

/-- `CommanderTracker.process_fsd_jump` with its raise flag: a
`TypeError` in the departure sweep aborts before the arrival section; a
fresh non-duplicate arrival into a tracked system records the arrival
key and then raises at cmdr_tracker.py:284 (`set() + 1`), skipping the
arrival event, the departure search and the fallback. -/
def processFsdJumpT (now : Ts) (st : St) (uploader : Option String) (msg : MsgBody) :
    St × List Event × Bool :=
  let timestamp := msg.timestamp.getD now
  if msg.starSystem = "" ∨ msg.systemAddress = 0 then (st, [], false)
  else if 600 < |now - timestamp| then (st, [], false)
  else
    let st := { st with recentNavroutes := cleanupOldRoutes now st.recentNavroutes }
    let r0 := cleanupPD now st.pending st.tracked st.autoProcessed
    let st := { st with pending := r0.1, tracked := r0.2.1, autoProcessed := r0.2.2.1 }
    let ev0 := r0.2.2.2.1
    if r0.2.2.2.2 then (st, ev0, true)
    else
      let nav := navLookup st.recentNavroutes uploader
      let sys := msg.starSystem
      if (alGet st.tracked sys).isSome then
        if st.recentArrivals.any (fun p => decide (p.1.2 = sys ∧ p.2 = timestamp)) then
          (st, ev0, false)
        else
          let dup :=
            match alGet st.recentArrivals (uidStr uploader, sys) with
            | some last => decide (timestamp - last < 30)
            | none => false
          if dup then (st, ev0, false)
          else
            let st := { st with
              recentArrivals := alSet st.recentArrivals (uidStr uploader, sys) timestamp }
            match (commandersOf st.tracked sys).plusOne with
            | none => (st, ev0, true)
            | some c =>
              let st := { st with tracked := alUpd st.tracked sys (fun t =>
                { t with commanders := .pyint c, jumpsTo := t.jumpsTo + 1 }) }
              let action :=
                match nav with
                | some route => if route.toSystem = sys then "arrived_planned" else "arrived"
                | none => "arrived"
              jumpDepartPhase timestamp uploader nav sys st
                (ev0 ++ [Event.arrivedEv action sys c timestamp (uidStr uploader)])
      else
        jumpDepartPhase timestamp uploader nav sys st ev0

/-- Observable result of `process_fsd_jump` at the dispatcher's
`try/except` boundary: the state and the events already delivered through
`handle_event` survive a `TypeError`; the exception itself does not. -/
def processFsdJump (now : Ts) (st : St) (uploader : Option String) (msg : MsgBody) :
    St × List Event :=
  ((processFsdJumpT now st uploader msg).1, (processFsdJumpT now st uploader msg).2.1)

/-! ### Signal processor (`EDDNListener.process_fss_signals`) -/

/-- Accumulator of the per-signal detection loop. -/
structure FssAcc where
  st : St
  found : List String
  fcCount : Nat
  events : List Event
  notifs : List Notif

/-- One iteration of the detection loop: count fleet carriers in tracked
systems; on an exact tracked-ship name match that is not fleet-carrier
typed, record the detection, and — only when the scanned system is
tracked — store the detection timestamp, clear the missing counter, fire
the "appeared" trigger when the last-known system differs, and update the
last-known-system pointer. -/
def detectStep (msgTs : Ts) (system : String) (sysAddr : Nat) (acc : FssAcc) (sig : Signal) :
    FssAcc :=
  let sigTs := sig.timestamp.getD msgTs
  let inTracked := (alGet acc.st.tracked system).isSome
  let acc1 :=
    if inTracked ∧ sig.sigType = "FleetCarrier" then
      { acc with fcCount := acc.fcCount + 1,
                 st := { acc.st with fleetCarriersSeen := acc.st.fleetCarriersSeen + 1 } }
    else acc
  if sig.name ∈ shipNames ∧ sig.sigType ≠ "FleetCarrier" then
    let irregular := !inTracked
    let statusStr := if irregular then "IRREGULAR VISIT" else "DETECTED"
    let st1 := { acc1.st with megaships := (upd acc1.st.megaships sig.name
      { lastSeen := some sigTs, system := some system, systemAddress := some sysAddr,
        sigType := some sig.sigType, status := statusStr,
        lastChecked := none, previousDetection := none }) }
    let r : St × List Notif :=
      if inTracked then
        let st2 := { st1 with
          tracked := alUpd st1.tracked system (fun t => t.setShip sig.name (.ts sigTs)),
          missing := upd st1.missing (sig.name, system) none }
        let nts :=
          match st2.prevShipSystems sig.name with
          | some p => if p ≠ system then acc1.notifs ++ [.shipAppeared sig.name system sigTs]
                      else acc1.notifs
          | none => acc1.notifs
        ({ st2 with prevShipSystems := upd st2.prevShipSystems sig.name (some system) }, nts)
      else (st1, acc1.notifs)
    { st := r.1,
      found := if sig.name ∈ acc1.found then acc1.found else acc1.found ++ [sig.name],
      fcCount := acc1.fcCount,
      events := acc1.events ++
        [Event.megaship sig.name system sysAddr sig.sigType statusStr sigTs irregular],
      notifs := r.2 }
  else acc1

/-- One iteration of the missing-megaship check for ship `name` in the
(tracked) scanned system: if the ship is absent from the scan and its
stored per-system status is a detection timestamp, bump the missing
counter; at count ≥ 5 flip the status to SIGNAL MISSING and emit the
event, and at count = 6 exactly fire the "jumped" trigger. -/
def missStep (msgTs : Ts) (system : String) (sysAddr : Nat) (found : List String)
    (acc : St × List Event × List Notif) (name : String) : St × List Event × List Notif :=
  let st := acc.1
  match alGet st.tracked system with
  | none => acc
  | some tsys =>
    let cur := tsys.getShip name
    if name ∈ found then acc
    else if cur.isTimestamp then
      let cnt := (st.missing (name, system)).getD 0 + 1
      let st1 := { st with missing := upd st.missing (name, system) (some cnt) }
      if 5 ≤ cnt then
        let ms := st1.megaships name
        let ms' := { ms with status := "SIGNAL MISSING", lastChecked := some msgTs,
                             previousDetection := some cur }
        let st2 := { st1 with
          megaships := upd st1.megaships name ms',
          tracked := alUpd st1.tracked system (fun t => t.setShip name .signalMissing) }
        let nts := if cnt = 6 then acc.2.2 ++ [.shipJumped name system msgTs] else acc.2.2
        (st2, acc.2.1 ++ [Event.megashipMissing name system sysAddr msgTs cur], nts)
      else (st1, acc.2.1, acc.2.2)
    else acc

/-- `EDDNListener.process_fss_signals`. -/
def processFssSignals (now : Ts) (st : St) (msg : MsgBody) : St × List Event × List Notif :=
  let timestamp := msg.timestamp.getD now
  if msg.starSystem = "" ∨ msg.systemAddress = 0 then (st, [], [])
  else if 600 < |now - timestamp| then (st, [], [])
  else if msg.signals = [] then (st, [], [])
  else
    let st := { st with signalsChecked := st.signalsChecked + msg.signals.length }
    let acc := msg.signals.foldl (detectStep timestamp msg.starSystem msg.systemAddress)
      { st := st, found := [], fcCount := 0, events := [], notifs := [] }
    let r :=
      if (alGet acc.st.tracked msg.starSystem).isSome then
        shipNames.foldl (missStep timestamp msg.starSystem msg.systemAddress acc.found)
          (acc.st, acc.events, acc.notifs)
      else (acc.st, acc.events, acc.notifs)
    let st2 :=
      if (alGet r.1.tracked msg.starSystem).isSome then
        { r.1 with tracked := (alUpd r.1.tracked msg.starSystem
            (fun t => { t with fleetCarriers := acc.fcCount })) }
      else r.1
    (st2, r.2.1, r.2.2)

/-! ### Dispatcher (`EDDNListener.process_message`)

The dispatcher is embedded generically over its three handlers so that
its isolation properties can be stated for arbitrary handler behaviour.
A handler result carries a flag recording whether the handler raised; it
reports the state and events produced up to the raise point (in the
source, events already delivered through `handle_event` persist).  The
dispatcher catches the raise — its own result type has no failure
component — and keeps the handler's state and events. -/

abbrev HRes := St × List Event × List Notif × Bool

/-- `schema.lower()`: ASCII lowercase, character by character (EDDN schema
refs are ASCII URLs). -/
def lowerStr (s : String) : String := ⟨s.data.map Char.toLower⟩

/-- `"…" in schema` containment test. -/
def strContains (s pat : String) : Bool := decide (pat.toList <:+: s.toList)

/-- `f"{uploaderID}_{softwareName}" if uploaderID and softwareName else None`. -/
def cmdrIdOf (h : Header) : Option String :=
  if h.uploaderID ≠ "" ∧ h.softwareName ≠ "" then some (h.uploaderID ++ "_" ++ h.softwareName)
  else none

/-- `EDDNListener.process_message`, generic in the three handlers. -/
def dispatchWith (hFss : Ts → St → MsgBody → HRes)
    (hJump hNav : Ts → St → Option String → MsgBody → HRes)
    (now : Ts) (st : St) (m : RawMessage) : St × List Event × List Notif :=
  let st := { st with messagesProcessed := st.messagesProcessed + 1 }
  let schema := lowerStr m.schemaRef
  match m.message with
  | none => (st, [], [])
  | some body =>
    let cmdrId := cmdrIdOf m.header
    if strContains schema "fsssignaldiscovered" then
      let r := hFss now st body
      (r.1, r.2.1, r.2.2.1)
    else if strContains schema "journal" then
      if body.event = some "FSDJump" then
        let r := hJump now st cmdrId body
        (r.1, r.2.1, r.2.2.1)
      else (st, [], [])
    else if strContains schema "navroute" then
      let r := hNav now st cmdrId body
      (r.1, r.2.1, r.2.2.1)
    else (st, [], [])

/-- The signal handler never raises. -/
def fssHandler (now : Ts) (st : St) (body : MsgBody) : HRes :=
  let r := processFssSignals now st body
  (r.1, r.2.1, r.2.2, false)

/-- The jump handler raises whenever `process_fsd_jump` hits `TypeError`
on the `set()`-valued `"commanders"` field; the flag records it, the
dispatcher's catch drops it. -/
def jumpHandler (now : Ts) (st : St) (u : Option String) (body : MsgBody) : HRes :=
  let r := processFsdJumpT now st u body
  (r.1, r.2.1, [], r.2.2)

/-- The listener calls `process_nav_route` with no callback
(eddn_listener.py:310-312), so the planned_departure / planned_arrival
events the tracker computes are dropped at the dispatcher level;
`processNavRoute` still returns them for the tracker-level theorems. -/
def navHandler (now : Ts) (st : St) (u : Option String) (body : MsgBody) : HRes :=
  let r := processNavRoute now st u body
  (r.1, [], [], false)

/-- The concrete dispatcher. -/
def processMessage (now : Ts) (st : St) (m : RawMessage) : St × List Event × List Notif :=
  dispatchWith fssHandler jumpHandler navHandler now st m

/-- Run a sequence of messages, each processed at its own wall-clock time. -/
def runMessages (st : St) : List (Ts × RawMessage) → St
  | [] => st
  | (now, m) :: rest => runMessages (processMessage now st m).1 rest

/-! ### Drivers, predicates and scenario inputs used by the theorems -/

/-- Iterate `process_fss_signals` over a list of (wall-clock time, message)
scans, collecting events and notification triggers in order. -/
def runFss (st : St) : List (Ts × MsgBody) → St × List Event × List Notif
  | [] => (st, [], [])
  | (now, m) :: rest =>
    let r := processFssSignals now st m
    let r' := runFss r.1 rest
    (r'.1, r.2.1 ++ r'.2.1, r.2.2 ++ r'.2.2)

def Notif.isAppeared : Notif → Bool
  | .shipAppeared _ _ _ => true
  | _ => false

def Notif.isJumped : Notif → Bool
  | .shipJumped _ _ _ => true
  | _ => false

/-- Events carrying `status: SIGNAL MISSING`. -/
def Event.isMissing : Event → Bool
  | .megashipMissing _ _ _ _ _ => true
  | _ => false

/-- A fresh scan of system `S` whose signal list is non-empty but contains
no detection of `ship` (no exact, non-fleet-carrier name match). -/
def AbsentScan (ship S : String) (p : Ts × MsgBody) : Prop :=
  p.2.starSystem = S ∧ p.2.systemAddress ≠ 0 ∧ p.2.signals ≠ [] ∧
  (∀ sig ∈ p.2.signals, ¬(sig.name = ship ∧ sig.sigType ≠ "FleetCarrier")) ∧
  |p.1 - (p.2.timestamp.getD p.1)| ≤ 600

/-- Per-system status of a ship in a tracked-systems list. -/
def shipAt (tr : List (String × TrackedSystem)) (sys name : String) : SigStatus :=
  match alGet tr sys with
  | some t => t.getShip name
  | none => .notDetected

/-- Per-system status of a ship as read by the missing-signal check. -/
def statusOf (st : St) (sys name : String) : SigStatus :=
  shipAt st.tracked sys name

/-- The ship name carried by a SIGNAL MISSING event. -/
def missingName : Event → Option String
  | .megashipMissing n _ _ _ _ => some n
  | _ => none

/-- Missing-counter invariant (claim C10): every counter is at most 5, and
at most 4 while the stored status is still a detection timestamp. -/
def MissingBound (st : St) : Prop :=
  ∀ name sys, ((st.missing (name, sys)).getD 0 ≤ 5) ∧
    ((statusOf st sys name).isTimestamp = true → (st.missing (name, sys)).getD 0 ≤ 4)

/-- C3 failing input, detection scan: Cygnus detected in Nukamba at t = 1000. -/
def c3Detection : MsgBody :=
  { starSystem := "Nukamba", systemAddress := 1183095788250, timestamp := some 1000,
    signals := [⟨"Cygnus", "Megaship", some 1000⟩] }

/-- C3 failing input, absent scan: fresh Nukamba scan without Cygnus. -/
def c3Absent (t : Ts) : MsgBody :=
  { starSystem := "Nukamba", systemAddress := 1183095788250, timestamp := some t,
    signals := [⟨"Scanner Probe", "Installation", none⟩] }

/-- C3 failing input: one detection followed by six consecutive fresh
absent scans, each processed at its own timestamp. -/
def c3Scans : List (Ts × MsgBody) :=
  (1000, c3Detection) ::
    (List.range 6).map (fun i => ((1060 + 60 * i : Int), c3Absent (1060 + 60 * i)))

/-- C7 counterexample state: Cygnus last known in Nukamba. -/
def c7St : St :=
  { initSt with prevShipSystems := upd initSt.prevShipSystems "Cygnus" (some "Nukamba") }

/-- C7 counterexample scan: exact Cygnus signal in the non-monitored
system "Elsewhere". -/
def c7Msg : MsgBody :=
  { starSystem := "Elsewhere", systemAddress := 42, timestamp := some 100,
    signals := [⟨"Cygnus", "Megaship", some 100⟩] }

/-- A handler that raises immediately (for the dispatcher-isolation
theorems): state and events as left at the raise point, flag set. -/
def raiseFss : Ts → St → MsgBody → HRes := fun _ st _ => (st, [], [], true)

/-- A raising jump/route handler. -/
def raiseUH : Ts → St → Option String → MsgBody → HRes := fun _ st _ _ => (st, [], [], true)

/-- C10 witness state: Nukamba with Cygnus at SIGNAL MISSING, counter 5. -/
def c10St : St :=
  { initSt with
    tracked := alUpd initSt.tracked "Nukamba" (fun t => t.setShip "Cygnus" SigStatus.signalMissing),
    missing := upd initSt.missing ("Cygnus", "Nukamba") (some 5) }

instance (ship S : String) (p : Ts × MsgBody) : Decidable (AbsentScan ship S p) := by
  unfold AbsentScan
  exact inferInstance

/-- C4 witness state: Nukamba with Cygnus detected at t = 1000. -/
def c4St : St :=
  { initSt with
    tracked := alUpd initSt.tracked "Nukamba" (fun t => t.setShip "Cygnus" (SigStatus.ts 1000)) }

/-- C4 witness scans: five fresh Nukamba scans without Cygnus. -/
def c4Scans : List (Ts × MsgBody) :=
  [(1060, c3Absent 1060), (1120, c3Absent 1120), (1180, c3Absent 1180),
   (1240, c3Absent 1240), (1300, c3Absent 1300)]

/-- C1 failing input: the pairing scenario's route-plan half — Nukamba
(monitored) to Marfic (monitored), uploader U1, t0 = 5000 — which
succeeds and records one pending departure. -/
def c1St : St :=
  (processNavRoute 5000 initSt (some "U1")
    { route := ["Nukamba", "Marfic"], timestamp := some 5000 }).1

/-- C1 failing input: the follow-up fresh jump-confirmed into Marfic. -/
def c1Jump : MsgBody :=
  { event := some "FSDJump", starSystem := "Marfic", systemAddress := 203174184124,
    timestamp := some 5030 }

/-- C5 failing input: a fresh jump-confirmed into monitored Marfic. -/
def c5Jump : MsgBody :=
  { event := some "FSDJump", starSystem := "Marfic", systemAddress := 203174184124,
    timestamp := some 5000 }

/-- The state the first (crashing) arrival leaves behind. -/
def c5St1 : St := (processFsdJumpT 5000 initSt (some "U1") c5Jump).1

/-- C6 failing input: one pending departure from monitored Nukamba, 400 s
old at the sweep time 500. -/
def c6St : St := { initSt with pending := [(("Nukamba", "Zeta"), [⟨100, false, "U9"⟩])] }

/-- C6 failing input: any fresh jump (here into an untracked system)
triggers the sweep. -/
def c6Jump : MsgBody :=
  { event := some "FSDJump", starSystem := "Elsewhere", systemAddress := 999,
    timestamp := some 500 }

/-! ### Association-list lemmas -/

theorem alGet_alUpd_self {α β : Type} [DecidableEq α] (m : List (α × β)) (k : α) (f : β → β) :
    alGet (alUpd m k f) k = (alGet m k).map f := by
  induction m with
  | nil => rfl
  | cons p t ih =>
    obtain ⟨a, b⟩ := p
    by_cases h : a = k
    · simp [alUpd, alGet, h]
    · simp [alUpd, alGet, h, ih]

theorem alGet_alUpd_ne {α β : Type} [DecidableEq α] (m : List (α × β)) (k k' : α) (f : β → β)
    (h : k' ≠ k) : alGet (alUpd m k f) k' = alGet m k' := by
  induction m with
  | nil => rfl
  | cons p t ih =>
    obtain ⟨a, b⟩ := p
    by_cases h1 : a = k
    · subst h1
      have h2 : a ≠ k' := fun hh => h (hh ▸ rfl)
      simp [alUpd, alGet, h2]
    · by_cases h2 : a = k'
      · simp [alUpd, alGet, h1, h2, h]
      · simp [alUpd, alGet, h1, h2, ih]

theorem alGet_alSet_self {α β : Type} [DecidableEq α] (m : List (α × β)) (k : α) (v : β) :
    alGet (alSet m k v) k = some v := by
  induction m with
  | nil => simp [alSet, alGet]
  | cons p t ih =>
    obtain ⟨a, b⟩ := p
    by_cases h : a = k
    · simp [alSet, alGet, h]
    · simp [alSet, alGet, h, ih]

theorem alGet_alSet_ne {α β : Type} [DecidableEq α] (m : List (α × β)) (k k' : α) (v : β)
    (h : k' ≠ k) : alGet (alSet m k v) k' = alGet m k' := by
  induction m with
  | nil =>
    have h2 : k ≠ k' := fun hh => h hh.symm
    simp [alSet, alGet, h2]
  | cons p t ih =>
    obtain ⟨a, b⟩ := p
    by_cases h1 : a = k
    · subst h1
      have h2 : a ≠ k' := fun hh => h (hh ▸ rfl)
      simp [alSet, alGet, h2]
    · by_cases h2 : a = k'
      · simp [alSet, alGet, h1, h2, h]
      · simp [alSet, alGet, h1, h2, ih]

theorem alUpd_map_fst {α β : Type} [DecidableEq α] (m : List (α × β)) (k : α) (f : β → β) :
    (alUpd m k f).map Prod.fst = m.map Prod.fst := by
  induction m with
  | nil => rfl
  | cons p t ih =>
    obtain ⟨a, b⟩ := p
    by_cases h : a = k
    · simp [alUpd, h]
    · simp [alUpd, h, ih]

theorem mem_keys_of_alGet_isSome {α β : Type} [DecidableEq α] (m : List (α × β)) (k : α)
    (h : (alGet m k).isSome = true) : k ∈ m.map Prod.fst := by
  induction m with
  | nil => simp [alGet] at h
  | cons p t ih =>
    obtain ⟨a, b⟩ := p
    by_cases h1 : a = k
    · simp [h1]
    · simp [alGet, h1] at h
      simp [ih h]

theorem upd_self {α β : Type} [DecidableEq α] (m : α → β) (k : α) (v : β) :
    upd m k v k = v := by simp [upd]

theorem upd_ne {α β : Type} [DecidableEq α] (m : α → β) (k x : α) (v : β) (h : x ≠ k) :
    upd m k v x = m x := by simp [upd, h]

/-! ### Claim C2 — staleness -/

/-- C2 (counterexample): the claim is false as stated because
`process_nav_route` has no staleness guard.  A route-plan message whose
timestamp (0) is 10000 s older than the current time (10000) still caches
the NavRoute, records a pending departure and emits a `planned_departure`
event. -/
theorem c2_stale_navroute_mutates :
    (processNavRoute 10000 initSt (some "U5")
        { route := ["Nukamba", "Beta"], timestamp := some 0 }).2 =
      [Event.plannedDeparture "Nukamba" "Beta" 0 "U5"] ∧
    (processNavRoute 10000 initSt (some "U5")
        { route := ["Nukamba", "Beta"], timestamp := some 0 }).1.pending =
      [(("Nukamba", "Beta"), [⟨0, false, "U5"⟩])] ∧
    (processNavRoute 10000 initSt (some "U5")
        { route := ["Nukamba", "Beta"], timestamp := some 0 }).1.recentNavroutes =
      [("U5", ⟨"Nukamba", "Beta", 0⟩)] := by
  refine ⟨by decide, by decide, by decide⟩

/-- C2 (amended): for the signal-discovery and jump-confirmed shapes the
staleness property holds as claimed — a message whose timestamp differs
from the current time by more than 600 s leaves the whole state untouched
and emits no event and no notification.  (The route-plan shape, by
contrast, has no staleness guard; see the counterexample.) -/
theorem c2_stale_fss_jump_no_mutation (now t : Ts) (st : St) (u : Option String) (msg : MsgBody)
    (hts : msg.timestamp = some t) (hstale : 600 < |now - t|) :
    processFssSignals now st msg = (st, [], []) ∧ processFsdJump now st u msg = (st, []) := by
  constructor
  · unfold processFssSignals
    rw [hts]
    by_cases h1 : msg.starSystem = "" ∨ msg.systemAddress = 0
    · simp [h1]
    · simp [h1, hstale]
  · unfold processFsdJump processFsdJumpT
    rw [hts]
    by_cases h1 : msg.starSystem = "" ∨ msg.systemAddress = 0
    · simp [h1]
    · simp [h1, hstale]

/-- Witness for the amended C2 theorem at a concrete stale input. -/
theorem c2_stale_fss_jump_no_mutation_witness :
    processFssSignals 10000 initSt
        { starSystem := "Nukamba", systemAddress := 1, timestamp := some 0 } = (initSt, [], []) ∧
    processFsdJump 10000 initSt (some "U")
        { starSystem := "Nukamba", systemAddress := 1, timestamp := some 0 } = (initSt, []) :=
  c2_stale_fss_jump_no_mutation 10000 0 initSt (some "U")
    { starSystem := "Nukamba", systemAddress := 1, timestamp := some 0 } rfl (by decide)

/-! ### Claim C3 — jump-notification threshold -/

/-- C3 (code evaluated at the failing input): after Cygnus is detected in
the monitored system Nukamba and six consecutive fresh scans of Nukamba
lack it, the missing-confirmation counter is 5, not 6 — the status flips
to SIGNAL MISSING at the 5th miss, which blocks any further increment —
and no "jumped" notification trigger is ever fired (the
`MISSING_COUNT_FOR_JUMP == 6` branch is unreachable).  Exactly one SIGNAL
MISSING event is emitted, at the 5th miss. -/
theorem c3_jump_threshold_dead :
    (runFss initSt c3Scans).1.missing ("Cygnus", "Nukamba") = some 5 ∧
    (runFss initSt c3Scans).2.2 = [] ∧
    (runFss initSt c3Scans).2.1.filter Event.isMissing =
      [Event.megashipMissing "Cygnus" "Nukamba" 1183095788250 1300 (.ts 1000)] := by
  refine ⟨by decide, by decide, by decide⟩

/-! ### Claim C7 — "appeared" trigger -/

/-- The missing-megaship check never touches the last-known-system
pointer, and only ever appends "jumped" notification triggers. -/
theorem missStep_effects (m : Ts) (s : String) (a : Nat) (f : List String)
    (acc : St × List Event × List Notif) (name : String) :
    (missStep m s a f acc name).1.prevShipSystems = acc.1.prevShipSystems ∧
    ∃ l, (missStep m s a f acc name).2.2 = acc.2.2 ++ l ∧ ∀ n ∈ l, n.isJumped = true := by
  unfold missStep
  dsimp only
  split
  · exact ⟨rfl, [], by simp, by simp⟩
  · split
    · exact ⟨rfl, [], by simp, by simp⟩
    · split
      · split
        · refine ⟨rfl, ?_⟩
          split
          · exact ⟨[Notif.shipJumped name s m], rfl, by simp [Notif.isJumped]⟩
          · exact ⟨[], by simp, by simp⟩
        · exact ⟨rfl, [], by simp, by simp⟩
      · exact ⟨rfl, [], by simp, by simp⟩

/-- Folding the missing-megaship check over any ship list preserves the
last-known-system pointer and appends only "jumped" triggers. -/
theorem missFold_effects (names : List String) (m : Ts) (s : String) (a : Nat)
    (f : List String) (acc : St × List Event × List Notif) :
    ((names.foldl (missStep m s a f) acc).1.prevShipSystems = acc.1.prevShipSystems) ∧
    ∃ l, (names.foldl (missStep m s a f) acc).2.2 = acc.2.2 ++ l ∧
      ∀ n ∈ l, n.isJumped = true := by
  induction names generalizing acc with
  | nil => exact ⟨rfl, [], by simp, by simp⟩
  | cons x xs ih =>
    obtain ⟨h1, l1, hl1, hj1⟩ := missStep_effects m s a f acc x
    obtain ⟨h2, l2, hl2, hj2⟩ := ih (missStep m s a f acc x)
    refine ⟨by rw [List.foldl_cons, h2, h1], l1 ++ l2, ?_, ?_⟩
    · rw [List.foldl_cons, hl2, hl1, List.append_assoc]
    · intro n hn
      rcases List.mem_append.mp hn with h | h
      · exact hj1 n h
      · exact hj2 n h

/-- A list of "jumped" triggers contains no "appeared" trigger. -/
theorem filter_isAppeared_of_jumped (l : List Notif) (h : ∀ n ∈ l, n.isJumped = true) :
    l.filter Notif.isAppeared = [] := by
  induction l with
  | nil => rfl
  | cons x xs ih =>
    have hx := h x (by simp)
    have hxa : x.isAppeared = false := by
      cases x <;> simp_all [Notif.isJumped, Notif.isAppeared]
    simp [List.filter, hxa, ih (fun n hn => h n (by simp [hn]))]

/-- C7 (counterexample): with Cygnus last known in Nukamba, an exact
Cygnus detection in the non-monitored system "Elsewhere" fires no
"appeared" trigger and leaves the last-known-system pointer unchanged —
the source only runs the appeared check when the scanned system is
monitored. -/
theorem c7_appeared_counterexample :
    (processFssSignals 100 c7St c7Msg).2.2 = [] ∧
    (processFssSignals 100 c7St c7Msg).1.prevShipSystems "Cygnus" = some "Nukamba" ∧
    (processFssSignals 100 c7St c7Msg).2.1 =
      [Event.megaship "Cygnus" "Elsewhere" 42 "Megaship" "IRREGULAR VISIT" 100 true] := by
  refine ⟨by decide, rfl, by decide⟩

/-- Folding the missing-megaship check preserves the last-known-system pointer. -/
theorem missFold_prevShip (names : List String) (m : Ts) (S : String) (a : Nat)
    (f : List String) (stA : St) (evA : List Event) (ntA : List Notif) :
    (names.foldl (missStep m S a f) (stA, evA, ntA)).1.prevShipSystems = stA.prevShipSystems :=
  (missFold_effects names m S a f (stA, evA, ntA)).1

/-- Folding the missing-megaship check adds no "appeared" triggers. -/
theorem missFold_filter_appeared (names : List String) (m : Ts) (S : String) (a : Nat)
    (f : List String) (stA : St) (evA : List Event) (ntA : List Notif) :
    ((names.foldl (missStep m S a f) (stA, evA, ntA)).2.2).filter Notif.isAppeared =
      ntA.filter Notif.isAppeared := by
  obtain ⟨-, l, hl, hj⟩ := missFold_effects names m S a f (stA, evA, ntA)
  rw [hl, List.filter_append, filter_isAppeared_of_jumped l hj, List.append_nil]

/-- C7 (amended): the "appeared" trigger behaviour holds only for scans of
*monitored* systems — in the source the appeared check sits inside the
`if system in self.tracked_systems` branch.  For a fresh scan of a
monitored system containing an exact tracked-ship signal that is not
fleet-carrier typed, when the ship's last-known system is set and differs
from the scanned system, processing emits exactly one "appeared"
notification trigger and updates the last-known-system pointer to the
scanned system. -/
theorem c7_appeared_monitored (now mt : Ts) (st : St) (S : String) (addr : Nat)
    (sig : Signal) (p : String)
    (hS : S ≠ "") (haddr : addr ≠ 0) (hfresh : |now - mt| ≤ 600)
    (hname : sig.name ∈ shipNames) (htype : sig.sigType ≠ "FleetCarrier")
    (hmon : (alGet st.tracked S).isSome = true)
    (hprev : st.prevShipSystems sig.name = some p) (hdiff : p ≠ S) :
    (processFssSignals now st
        { starSystem := S, systemAddress := addr, timestamp := some mt,
          signals := [sig] }).2.2.filter Notif.isAppeared =
      [.shipAppeared sig.name S (sig.timestamp.getD mt)] ∧
    (processFssSignals now st
        { starSystem := S, systemAddress := addr, timestamp := some mt,
          signals := [sig] }).1.prevShipSystems sig.name = some S := by
  have hg : ¬(S = "" ∨ addr = 0) := by
    rintro (h | h)
    · exact hS h
    · exact haddr h
  have hst : ¬(600 < |now - mt|) := not_lt.mpr hfresh
  unfold processFssSignals
  dsimp only
  simp only [Option.getD_some]
  rw [if_neg hg, if_neg hst, if_neg (by simp : ¬([sig] = ([] : List Signal)))]
  simp only [List.foldl_cons, List.foldl_nil]
  unfold detectStep
  dsimp only
  simp only [hmon, htype, hprev, hname, if_true, if_false, true_and, and_false, and_true,
    Bool.not_true, ite_true, ite_false, ne_eq, not_false_iff]
  simp only [hdiff, if_true, ite_true, ite_false, List.nil_append, not_false_iff]
  have hups : (alGet (alUpd st.tracked S
      (fun t => t.setShip sig.name (SigStatus.ts (sig.timestamp.getD mt)))) S).isSome = true := by
    rw [alGet_alUpd_self]
    cases h2 : alGet st.tracked S with
    | none => rw [h2] at hmon; exact absurd hmon (by simp)
    | some v => rfl
  simp only [hups, if_true, ite_true, Bool.false_eq_true, if_false, ite_false]
  simp only [if_neg (List.not_mem_nil sig.name)]
  constructor
  · rw [missFold_filter_appeared]
    simp [Notif.isAppeared, List.filter]
  · split
    · rw [missFold_prevShip]
      dsimp only
      exact upd_self st.prevShipSystems sig.name (some S)
    · rw [missFold_prevShip]
      dsimp only
      exact upd_self st.prevShipSystems sig.name (some S)

/-- Witness for the amended C7 theorem at a concrete monitored-system scan. -/
theorem c7_appeared_monitored_witness :
    (processFssSignals 100 c7St
        { starSystem := "Graffias", systemAddress := 17880842853, timestamp := some 100,
          signals := [⟨"Cygnus", "Megaship", some 100⟩] }).2.2.filter Notif.isAppeared =
      [.shipAppeared "Cygnus" "Graffias" 100] ∧
    (processFssSignals 100 c7St
        { starSystem := "Graffias", systemAddress := 17880842853, timestamp := some 100,
          signals := [⟨"Cygnus", "Megaship", some 100⟩] }).1.prevShipSystems "Cygnus" =
      some "Graffias" :=
  c7_appeared_monitored 100 100 c7St "Graffias" 17880842853 ⟨"Cygnus", "Megaship", some 100⟩
    "Nukamba" (by decide) (by decide) (by decide) (by decide) (by decide) (by decide) rfl
    (by decide)

/-! ### Claim C8 — dispatcher isolation

`dispatchWith` is a total function into `St × List Event × List Notif`
with no failure component, so dispatch never propagates an exception to
its caller by construction; a raising handler is modelled by the `HRes`
flag, and the dispatcher drops the flag (the `try/except` catch), keeping
the state and events the handler produced up to the raise point. -/

/-- C8: (1) an empty-body message produces no handler call (the result is
the same for every choice of handlers) and no event; (2) likewise an
unrecognized schema; (3)–(5) a handler raise in any of the three handlers
is caught at the dispatcher boundary — the dispatcher returns the state
and events the handler left — and a subsequent message is dispatched from
that state exactly as it would be dispatched normally. -/
theorem c8_dispatcher_isolation :
    (∀ (hF : Ts → St → MsgBody → HRes) (hJ hN : Ts → St → Option String → MsgBody → HRes)
        (now : Ts) (st : St) (sr : String) (hd : Header),
      dispatchWith hF hJ hN now st { schemaRef := sr, message := none, header := hd } =
        ({ st with messagesProcessed := st.messagesProcessed + 1 }, [], [])) ∧
    (∀ (hF : Ts → St → MsgBody → HRes) (hJ hN : Ts → St → Option String → MsgBody → HRes)
        (now : Ts) (st : St) (m : RawMessage) (b : MsgBody), m.message = some b →
      strContains (lowerStr m.schemaRef) "fsssignaldiscovered" = false →
      strContains (lowerStr m.schemaRef) "journal" = false →
      strContains (lowerStr m.schemaRef) "navroute" = false →
      dispatchWith hF hJ hN now st m =
        ({ st with messagesProcessed := st.messagesProcessed + 1 }, [], [])) ∧
    (∀ (hF : Ts → St → MsgBody → HRes) (hJ hN : Ts → St → Option String → MsgBody → HRes)
        (now1 now2 : Ts) (st s1 : St) (m1 m2 : RawMessage) (b : MsgBody)
        (ev1 : List Event) (nt1 : List Notif),
      m1.message = some b →
      strContains (lowerStr m1.schemaRef) "fsssignaldiscovered" = true →
      hF now1 { st with messagesProcessed := st.messagesProcessed + 1 } b = (s1, ev1, nt1, true) →
      dispatchWith hF hJ hN now1 st m1 = (s1, ev1, nt1) ∧
      dispatchWith hF hJ hN now2 (dispatchWith hF hJ hN now1 st m1).1 m2 =
        dispatchWith hF hJ hN now2 s1 m2) ∧
    (∀ (hF : Ts → St → MsgBody → HRes) (hJ hN : Ts → St → Option String → MsgBody → HRes)
        (now1 now2 : Ts) (st s1 : St) (m1 m2 : RawMessage) (b : MsgBody)
        (ev1 : List Event) (nt1 : List Notif),
      m1.message = some b →
      strContains (lowerStr m1.schemaRef) "fsssignaldiscovered" = false →
      strContains (lowerStr m1.schemaRef) "journal" = true →
      b.event = some "FSDJump" →
      hJ now1 { st with messagesProcessed := st.messagesProcessed + 1 } (cmdrIdOf m1.header) b =
        (s1, ev1, nt1, true) →
      dispatchWith hF hJ hN now1 st m1 = (s1, ev1, nt1) ∧
      dispatchWith hF hJ hN now2 (dispatchWith hF hJ hN now1 st m1).1 m2 =
        dispatchWith hF hJ hN now2 s1 m2) ∧
    (∀ (hF : Ts → St → MsgBody → HRes) (hJ hN : Ts → St → Option String → MsgBody → HRes)
        (now1 now2 : Ts) (st s1 : St) (m1 m2 : RawMessage) (b : MsgBody)
        (ev1 : List Event) (nt1 : List Notif),
      m1.message = some b →
      strContains (lowerStr m1.schemaRef) "fsssignaldiscovered" = false →
      strContains (lowerStr m1.schemaRef) "journal" = false →
      strContains (lowerStr m1.schemaRef) "navroute" = true →
      hN now1 { st with messagesProcessed := st.messagesProcessed + 1 } (cmdrIdOf m1.header) b =
        (s1, ev1, nt1, true) →
      dispatchWith hF hJ hN now1 st m1 = (s1, ev1, nt1) ∧
      dispatchWith hF hJ hN now2 (dispatchWith hF hJ hN now1 st m1).1 m2 =
        dispatchWith hF hJ hN now2 s1 m2) := by
  refine ⟨?_, ?_, ?_, ?_, ?_⟩
  · intro hF hJ hN now st sr hd
    rfl
  · intro hF hJ hN now st m b hm h1 h2 h3
    unfold dispatchWith
    rw [hm]
    simp only [h1, h2, h3, Bool.false_eq_true, if_false, ite_false]
  · intro hF hJ hN now1 now2 st s1 m1 m2 b ev1 nt1 hm h1 hrun
    have hd1 : dispatchWith hF hJ hN now1 st m1 = (s1, ev1, nt1) := by
      unfold dispatchWith
      rw [hm]
      simp only [h1, if_true, ite_true, hrun]
    exact ⟨hd1, by rw [hd1]⟩
  · intro hF hJ hN now1 now2 st s1 m1 m2 b ev1 nt1 hm h1 h2 hev hrun
    have hd1 : dispatchWith hF hJ hN now1 st m1 = (s1, ev1, nt1) := by
      unfold dispatchWith
      rw [hm]
      simp only [h1, h2, Bool.false_eq_true, if_false, ite_false, if_true, ite_true, hev, hrun]
    exact ⟨hd1, by rw [hd1]⟩
  · intro hF hJ hN now1 now2 st s1 m1 m2 b ev1 nt1 hm h1 h2 h3 hrun
    have hd1 : dispatchWith hF hJ hN now1 st m1 = (s1, ev1, nt1) := by
      unfold dispatchWith
      rw [hm]
      simp only [h1, h2, h3, Bool.false_eq_true, if_false, ite_false, if_true, ite_true, hrun]
    exact ⟨hd1, by rw [hd1]⟩

/-- Witness for C8 at concrete messages, with handlers that raise. -/
theorem c8_dispatcher_isolation_witness :
    (dispatchWith raiseFss raiseUH raiseUH 0 initSt
        { schemaRef := "https://eddn.edcd.io/schemas/journal/1", message := none,
          header := ⟨"a", "b"⟩ } =
      ({ initSt with messagesProcessed := initSt.messagesProcessed + 1 }, [], [])) ∧
    (dispatchWith raiseFss raiseUH raiseUH 0 initSt
        { schemaRef := "https://eddn.edcd.io/schemas/commodity/3", message := some {},
          header := ⟨"a", "b"⟩ } =
      ({ initSt with messagesProcessed := initSt.messagesProcessed + 1 }, [], [])) ∧
    (dispatchWith raiseFss raiseUH raiseUH 1 initSt
        { schemaRef := "https://eddn.edcd.io/schemas/fsssignaldiscovered/1",
          message := some {}, header := ⟨"a", "b"⟩ } =
      ({ initSt with messagesProcessed := initSt.messagesProcessed + 1 }, [], [])) ∧
    (dispatchWith raiseFss raiseUH raiseUH 2
        (dispatchWith raiseFss raiseUH raiseUH 1 initSt
          { schemaRef := "https://eddn.edcd.io/schemas/fsssignaldiscovered/1",
            message := some {}, header := ⟨"a", "b"⟩ }).1
        { schemaRef := "https://eddn.edcd.io/schemas/journal/1", message := none,
          header := ⟨"a", "b"⟩ } =
      dispatchWith raiseFss raiseUH raiseUH 2
        { initSt with messagesProcessed := initSt.messagesProcessed + 1 }
        { schemaRef := "https://eddn.edcd.io/schemas/journal/1", message := none,
          header := ⟨"a", "b"⟩ }) ∧
    (dispatchWith raiseFss raiseUH raiseUH 3 initSt
        { schemaRef := "https://eddn.edcd.io/schemas/journal/1",
          message := some { event := some "FSDJump" }, header := ⟨"a", "b"⟩ } =
      ({ initSt with messagesProcessed := initSt.messagesProcessed + 1 }, [], [])) ∧
    (dispatchWith raiseFss raiseUH raiseUH 4 initSt
        { schemaRef := "https://eddn.edcd.io/schemas/navroute/1",
          message := some {}, header := ⟨"a", "b"⟩ } =
      ({ initSt with messagesProcessed := initSt.messagesProcessed + 1 }, [], [])) := by
  obtain ⟨p1, p2, p3, p4, p5⟩ := c8_dispatcher_isolation
  have h3 := p3 raiseFss raiseUH raiseUH 1 2
    initSt { initSt with messagesProcessed := initSt.messagesProcessed + 1 }
    { schemaRef := "https://eddn.edcd.io/schemas/fsssignaldiscovered/1",
      message := some {}, header := ⟨"a", "b"⟩ }
    { schemaRef := "https://eddn.edcd.io/schemas/journal/1", message := none,
      header := ⟨"a", "b"⟩ } {} [] [] rfl (by decide) rfl
  have h4 := p4 raiseFss raiseUH raiseUH 3 0
    initSt { initSt with messagesProcessed := initSt.messagesProcessed + 1 }
    { schemaRef := "https://eddn.edcd.io/schemas/journal/1",
      message := some { event := some "FSDJump" }, header := ⟨"a", "b"⟩ }
    { schemaRef := "https://eddn.edcd.io/schemas/journal/1", message := none,
      header := ⟨"a", "b"⟩ } { event := some "FSDJump" } [] [] rfl (by decide) (by decide)
    rfl rfl
  have h5 := p5 raiseFss raiseUH raiseUH 4 0
    initSt { initSt with messagesProcessed := initSt.messagesProcessed + 1 }
    { schemaRef := "https://eddn.edcd.io/schemas/navroute/1",
      message := some {}, header := ⟨"a", "b"⟩ }
    { schemaRef := "https://eddn.edcd.io/schemas/journal/1", message := none,
      header := ⟨"a", "b"⟩ } {} [] [] rfl (by decide) (by decide) (by decide) rfl
  exact ⟨p1 raiseFss raiseUH raiseUH 0 initSt "https://eddn.edcd.io/schemas/journal/1" ⟨"a", "b"⟩,
    p2 raiseFss raiseUH raiseUH 0 initSt _ {} rfl (by decide) (by decide) (by decide),
    h3.1, h3.2, h4.1, h5.1⟩

/-- `process_nav_route` never touches `tracked_systems`. -/
theorem processNavRoute_tracked (now : Ts) (st : St) (u : Option String) (m : MsgBody) :
    (processNavRoute now st u m).1.tracked = st.tracked := by
  unfold processNavRoute
  dsimp only
  cases u with
  | none => rfl
  | some v =>
    dsimp only
    repeat' first
    | rfl
    | split

theorem alGet_mem {α β : Type} [DecidableEq α] (m : List (α × β)) (k : α) (v : β)
    (h : alGet m k = some v) : (k, v) ∈ m := by
  induction m with
  | nil => cases h
  | cons p t ih =>
    obtain ⟨a, b⟩ := p
    unfold alGet at h
    by_cases h1 : a = k
    · simp only [h1, if_true, ite_true, Option.some.injEq] at h
      simp [h1, h]
    · simp only [h1, if_false, ite_false] at h
      exact List.mem_cons.mpr (Or.inr (ih h))

theorem getShip_setShip_ne (t : TrackedSystem) (n n' : String) (v : SigStatus) (h : n' ≠ n) :
    (t.setShip n v).getShip n' = t.getShip n' := by
  unfold TrackedSystem.setShip TrackedSystem.getShip
  by_cases h1 : n = "Cygnus" <;> by_cases h2 : n = "The Orion" <;>
    by_cases h3 : n' = "Cygnus" <;> by_cases h4 : n' = "The Orion" <;>
    simp_all

theorem getShip_setShip_self (t : TrackedSystem) (n : String) (v : SigStatus)
    (h : n ∈ shipNames) : (t.setShip n v).getShip n = v := by
  unfold TrackedSystem.setShip TrackedSystem.getShip
  simp only [shipNames, List.mem_cons, List.mem_singleton, List.not_mem_nil, or_false] at h
  rcases h with h | h
  · simp [h]
  · subst h
    have hne : ("The Orion" : String) ≠ "Cygnus" := by decide
    simp [hne]

theorem shipAt_alUpd (tr : List (String × TrackedSystem)) (k : String)
    (f : TrackedSystem → TrackedSystem) (sys n : String)
    (hf : ∀ t, (f t).getShip n = t.getShip n) :
    shipAt (alUpd tr k f) sys n = shipAt tr sys n := by
  unfold shipAt
  by_cases h : sys = k
  · subst h
    rw [alGet_alUpd_self]
    cases alGet tr sys with
    | none => rfl
    | some t => exact hf t
  · rw [alGet_alUpd_ne _ _ _ _ h]

theorem sa_cleanupDeps (now : Ts) (f t : String) (deps : List Dep)
    (tr : List (String × TrackedSystem)) (auto : List (String × Ts)) (sys n : String) :
    shipAt (cleanupDeps now f t deps tr auto).2.1 sys n = shipAt tr sys n := by
  induction deps generalizing tr auto with
  | nil => rfl
  | cons d rest ih =>
    unfold cleanupDeps
    dsimp only
    split
    · exact ih tr auto
    · split
      · split
        · exact ih tr auto
        · split
          · split
            · rfl
            · rw [ih _ _]
              exact shipAt_alUpd tr f _ sys n (fun t => rfl)
          · exact ih tr _
      · exact ih tr auto

theorem sa_cleanupPD (now : Ts) (pd : List ((String × String) × List Dep))
    (tr : List (String × TrackedSystem)) (auto : List (String × Ts)) (sys n : String) :
    shipAt (cleanupPD now pd tr auto).2.1 sys n = shipAt tr sys n := by
  induction pd generalizing tr auto with
  | nil => rfl
  | cons q rest ih =>
    obtain ⟨k, deps⟩ := q
    unfold cleanupPD
    dsimp only
    split
    · exact sa_cleanupDeps now k.1 k.2 deps tr auto sys n
    · rw [ih _ _, sa_cleanupDeps]

theorem sa_depSearch (auto : List (String × Ts)) (sysT : String) (ts : Ts)
    (ks : List String) (pd : List ((String × String) × List Dep))
    (tr : List (String × TrackedSystem)) (sys n : String) :
    shipAt (depSearch auto sysT ts ks pd tr).2.1 sys n = shipAt tr sys n := by
  induction ks generalizing pd with
  | nil => rfl
  | cons f rest ih =>
    unfold depSearch
    dsimp only
    split
    · exact ih pd
    · split
      · split
        · rfl
        · exact shipAt_alUpd tr f _ sys n (fun t => rfl)
      · split
        · exact ih _
        · exact ih _

theorem sa_jumpDepartPhase (ts : Ts) (u : Option String) (nav : Option NavRoute)
    (sysT : String) (st : St) (evs : List Event) (sys n : String) :
    shipAt (jumpDepartPhase ts u nav sysT st evs).1.tracked sys n = shipAt st.tracked sys n := by
  unfold jumpDepartPhase
  dsimp only
  have h1 := sa_depSearch st.autoProcessed sysT ts (st.tracked.map (·.1)) st.pending st.tracked sys n
  split
  · exact h1
  · split
    · exact h1
    · split
      · exact h1
      · split
        · split
          · exact h1
          · split
            · refine (shipAt_alUpd _ _ _ sys n ?_).trans h1
              exact fun t => rfl
            · refine (shipAt_alUpd _ _ _ sys n ?_).trans h1
              exact fun t => rfl
        · split
          · exact h1
          · exact h1

theorem sa_processFsdJump (now : Ts) (st : St) (u : Option String) (m : MsgBody) (sys n : String) :
    shipAt (processFsdJump now st u m).1.tracked sys n = shipAt st.tracked sys n := by
  unfold processFsdJump processFsdJumpT
  dsimp only
  split
  · rfl
  · split
    · rfl
    · have h1 := sa_cleanupPD now st.pending st.tracked st.autoProcessed sys n
      split
      · exact h1
      · split
        · split
          · exact h1
          · split
            · exact h1
            · split
              · exact h1
              · rw [sa_jumpDepartPhase]
                dsimp only
                refine (shipAt_alUpd _ _ _ sys n ?_).trans h1
                exact fun t => rfl
        · rw [sa_jumpDepartPhase]
          exact h1

theorem jumpDepartPhase_missing (ts : Ts) (u : Option String) (nav : Option NavRoute)
    (sys : String) (st : St) (evs : List Event) :
    (jumpDepartPhase ts u nav sys st evs).1.missing = st.missing := by
  unfold jumpDepartPhase
  dsimp only
  repeat' first
  | rfl
  | split

theorem processFsdJump_missing (now : Ts) (st : St) (u : Option String) (m : MsgBody) :
    (processFsdJump now st u m).1.missing = st.missing := by
  unfold processFsdJump processFsdJumpT
  dsimp only
  repeat' first
  | rfl
  | rw [jumpDepartPhase_missing]
  | split

theorem processNavRoute_missing (now : Ts) (st : St) (u : Option String) (m : MsgBody) :
    (processNavRoute now st u m).1.missing = st.missing := by
  unfold processNavRoute
  dsimp only
  cases u with
  | none => rfl
  | some v =>
    dsimp only
    repeat' first
    | rfl
    | split

theorem shipAt_alUpd_setShip_ne (tr : List (String × TrackedSystem)) (system name : String)
    (v : SigStatus) (s2 n : String) (hp : n ≠ name ∨ s2 ≠ system) :
    shipAt (alUpd tr system (fun t => t.setShip name v)) s2 n = shipAt tr s2 n := by
  by_cases hs : s2 = system
  · subst hs
    have hn : n ≠ name := hp.resolve_right (by simp)
    unfold shipAt
    rw [alGet_alUpd_self]
    cases alGet tr s2 with
    | none => rfl
    | some t => exact getShip_setShip_ne t name n v hn
  · unfold shipAt
    rw [alGet_alUpd_ne _ _ _ _ hs]

theorem shipAt_alUpd_setShip_self (tr : List (String × TrackedSystem)) (system name : String)
    (v : SigStatus) (t0 : TrackedSystem) (hname : name ∈ shipNames)
    (hget : alGet tr system = some t0) :
    shipAt (alUpd tr system (fun t => t.setShip name v)) system name = v := by
  unfold shipAt
  rw [alGet_alUpd_self, hget]
  exact getShip_setShip_self t0 name v hname

theorem alGet_isSome_alUpd {α β : Type} [DecidableEq α] (m : List (α × β)) (k k' : α)
    (f : β → β) : (alGet (alUpd m k f) k').isSome = (alGet m k').isSome := by
  by_cases h : k' = k
  · subst h
    rw [alGet_alUpd_self]
    cases alGet m k' <;> rfl
  · rw [alGet_alUpd_ne _ _ _ _ h]

theorem mb_clear (st : St) (system name : String) (sigTs : Ts) (h : MissingBound st) :
    ∀ n s, ((upd st.missing (name, system) none (n, s)).getD 0 ≤ 5) ∧
      ((shipAt (alUpd st.tracked system (fun t => t.setShip name (SigStatus.ts sigTs))) s n).isTimestamp = true →
        (upd st.missing (name, system) none (n, s)).getD 0 ≤ 4) := by
  intro n s
  by_cases hp : (n, s) = (name, system)
  · rw [hp, upd_self]
    exact ⟨Nat.zero_le 5, fun _ => Nat.zero_le 4⟩
  · rw [upd_ne _ _ _ _ hp]
    have hd : n ≠ name ∨ s ≠ system := by
      by_contra hc
      push_neg at hc
      exact hp (by rw [hc.1, hc.2])
    rw [shipAt_alUpd_setShip_ne _ _ _ _ _ _ hd]
    exact ⟨(h n s).1, fun hts => (h n s).2 hts⟩

theorem mb_flip (st : St) (system name : String) (cnt : Nat) (hname : name ∈ shipNames)
    (hcnt : cnt ≤ 5) (h : MissingBound st) :
    ∀ n s, ((upd st.missing (name, system) (some cnt) (n, s)).getD 0 ≤ 5) ∧
      ((shipAt (alUpd st.tracked system (fun t => t.setShip name SigStatus.signalMissing)) s n).isTimestamp = true →
        (upd st.missing (name, system) (some cnt) (n, s)).getD 0 ≤ 4) := by
  intro n s
  by_cases hp : (n, s) = (name, system)
  · have hn : n = name := congrArg Prod.fst hp
    have hs : s = system := congrArg Prod.snd hp
    rw [hp, upd_self]
    refine ⟨hcnt, fun hts => ?_⟩
    rw [hs, hn] at hts
    have hf : (shipAt (alUpd st.tracked system (fun t => t.setShip name SigStatus.signalMissing)) system name).isTimestamp = false := by
      unfold shipAt
      rw [alGet_alUpd_self]
      cases alGet st.tracked system with
      | none => rfl
      | some t =>
        show ((t.setShip name SigStatus.signalMissing).getShip name).isTimestamp = false
        rw [getShip_setShip_self t name _ hname]
        rfl
    rw [hf] at hts
    exact absurd hts (by decide)
  · rw [upd_ne _ _ _ _ hp]
    have hd : n ≠ name ∨ s ≠ system := by
      by_contra hc
      push_neg at hc
      exact hp (by rw [hc.1, hc.2])
    rw [shipAt_alUpd_setShip_ne _ _ _ _ _ _ hd]
    exact ⟨(h n s).1, fun hts => (h n s).2 hts⟩

theorem mb_bump_small (st : St) (system name : String) (cnt : Nat) (hcnt : cnt ≤ 4)
    (h : MissingBound st) :
    ∀ n s, ((upd st.missing (name, system) (some cnt) (n, s)).getD 0 ≤ 5) ∧
      ((shipAt st.tracked s n).isTimestamp = true →
        (upd st.missing (name, system) (some cnt) (n, s)).getD 0 ≤ 4) := by
  intro n s
  by_cases hp : (n, s) = (name, system)
  · rw [hp, upd_self]
    exact ⟨Nat.le_trans hcnt (by decide), fun _ => hcnt⟩
  · rw [upd_ne _ _ _ _ hp]
    exact ⟨(h n s).1, fun hts => (h n s).2 hts⟩

theorem mb_alUpd_inv (st : St) (k : String) (f : TrackedSystem → TrackedSystem)
    (hf : ∀ t n, (f t).getShip n = t.getShip n) (h : MissingBound st) :
    MissingBound { st with tracked := alUpd st.tracked k f } := by
  intro n s
  refine ⟨(h n s).1, fun hts => (h n s).2 ?_⟩
  have heq := shipAt_alUpd st.tracked k f s n (fun t => hf t n)
  show (shipAt st.tracked s n).isTimestamp = true
  rw [← heq]
  exact hts

theorem mb_detectStep (msgTs : Ts) (system : String) (sysAddr : Nat) (acc : FssAcc)
    (sig : Signal) (h : MissingBound acc.st) :
    MissingBound (detectStep msgTs system sysAddr acc sig).st := by
  unfold detectStep
  dsimp only
  repeat' first
  | exact h
  | exact fun n s => mb_clear acc.st system sig.name _ h n s
  | split

theorem mb_detectFold (msgTs : Ts) (system : String) (sysAddr : Nat) (sigs : List Signal)
    (acc : FssAcc) (h : MissingBound acc.st) :
    MissingBound ((sigs.foldl (detectStep msgTs system sysAddr) acc)).st := by
  induction sigs generalizing acc with
  | nil => exact h
  | cons sig rest ih =>
    rw [List.foldl_cons]
    exact ih _ (mb_detectStep msgTs system sysAddr acc sig h)

theorem mb_missStep (m : Ts) (s : String) (a : Nat) (f : List String)
    (acc : St × List Event × List Notif) (name : String) (hname : name ∈ shipNames)
    (h : MissingBound acc.1) : MissingBound (missStep m s a f acc name).1 := by
  unfold missStep
  dsimp only
  split
  · exact h
  · rename_i tsys hget
    split
    · exact h
    · split
      · rename_i hts
        have h4 : (acc.1.missing (name, s)).getD 0 ≤ 4 := by
          have h2 := (h name s).2
          unfold statusOf shipAt at h2
          rw [hget] at h2
          exact h2 hts
        split
        · rename_i h5
          dsimp only
          intro n s2
          exact mb_flip acc.1 s name _ hname (by omega) h n s2
        · rename_i h5
          dsimp only
          intro n s2
          exact mb_bump_small acc.1 s name _ (by omega) h n s2
      · exact h

theorem mb_missFold (names : List String) (m : Ts) (s : String) (a : Nat)
    (f : List String) (acc : St × List Event × List Notif)
    (hnames : ∀ x ∈ names, x ∈ shipNames) (h : MissingBound acc.1) :
    MissingBound ((names.foldl (missStep m s a f) acc)).1 := by
  induction names generalizing acc with
  | nil => exact h
  | cons x xs ih =>
    rw [List.foldl_cons]
    exact ih _ (fun y hy => hnames y (List.mem_cons_of_mem x hy))
      (mb_missStep m s a f acc x (hnames x (List.mem_cons_self x xs)) h)

set_option maxHeartbeats 1000000 in
theorem mb_processFssSignals (now : Ts) (st : St) (m : MsgBody)
    (h : MissingBound st) : MissingBound (processFssSignals now st m).1 := by
  unfold processFssSignals
  dsimp only
  split
  · exact h
  · split
    · exact h
    · split
      · exact h
      · repeat' first
        | split
        | refine mb_alUpd_inv _ _ _ (fun t n => rfl) ?_
        | exact mb_detectFold _ _ _ _ _ h
        | exact mb_missFold shipNames _ _ _ _ _ (fun x hx => hx) (mb_detectFold _ _ _ _ _ h)

theorem mb_processFsdJump (now : Ts) (st : St) (u : Option String) (m : MsgBody)
    (h : MissingBound st) : MissingBound (processFsdJump now st u m).1 := by
  intro n s
  have hm := processFsdJump_missing now st u m
  have hs := sa_processFsdJump now st u m s n
  refine ⟨?_, fun hts => ?_⟩
  · rw [hm]
    exact (h n s).1
  · have hts2 : (shipAt (processFsdJump now st u m).1.tracked s n).isTimestamp = true := hts
    rw [hs] at hts2
    rw [hm]
    exact (h n s).2 hts2

theorem mb_processNavRoute (now : Ts) (st : St) (u : Option String) (m : MsgBody)
    (h : MissingBound st) : MissingBound (processNavRoute now st u m).1 := by
  intro n s
  have hm := processNavRoute_missing now st u m
  have ht := processNavRoute_tracked now st u m
  refine ⟨?_, fun hts => ?_⟩
  · rw [hm]
    exact (h n s).1
  · have hts2 : (shipAt (processNavRoute now st u m).1.tracked s n).isTimestamp = true := hts
    rw [ht] at hts2
    rw [hm]
    exact (h n s).2 hts2

theorem mb_processMessage (now : Ts) (st : St) (m : RawMessage)
    (h : MissingBound st) : MissingBound (processMessage now st m).1 := by
  unfold processMessage dispatchWith
  dsimp only
  cases m.message with
  | none => exact h
  | some b =>
    dsimp only
    split
    · exact mb_processFssSignals now _ b h
    · split
      · split
        · exact mb_processFsdJump now _ _ b h
        · exact h
      · split
        · exact mb_processNavRoute now _ _ b h
        · exact h

theorem mb_runMessages (msgs : List (Ts × RawMessage)) (st : St)
    (h : MissingBound st) : MissingBound (runMessages st msgs) := by
  induction msgs generalizing st with
  | nil => exact h
  | cons q rest ih =>
    obtain ⟨now, m⟩ := q
    exact ih _ (mb_processMessage now st m h)

theorem mb_initSt : MissingBound initSt :=
  fun _ _ => ⟨Nat.zero_le 5, fun _ => Nat.zero_le 4⟩

theorem missStep_found (m : Ts) (s : String) (a : Nat) (f : List String)
    (acc : St × List Event × List Notif) (name : String) (hf : name ∈ f) :
    missStep m s a f acc name = acc := by
  unfold missStep
  dsimp only
  split
  · rfl
  · rw [if_pos hf]

theorem missStep_no_ts (m : Ts) (s : String) (a : Nat) (f : List String)
    (acc : St × List Event × List Notif) (name : String)
    (h : (shipAt acc.1.tracked s name).isTimestamp = false) :
    missStep m s a f acc name = acc := by
  unfold missStep
  dsimp only
  split
  · rfl
  · rename_i tsys hget
    have h2 : (tsys.getShip name).isTimestamp = false := by
      unfold shipAt at h
      rw [hget] at h
      exact h
    split
    · rfl
    · split
      · rename_i hts
        rw [h2] at hts
        exact absurd hts (by decide)
      · rfl

theorem missStep_other (m : Ts) (s : String) (a : Nat) (f : List String)
    (acc : St × List Event × List Notif) (name ship : String) (hne : name ≠ ship) :
    (∀ s2, (missStep m s a f acc name).1.missing (ship, s2) = acc.1.missing (ship, s2)) ∧
    (∀ s2, shipAt (missStep m s a f acc name).1.tracked s2 ship = shipAt acc.1.tracked s2 ship) ∧
    (∀ e ∈ (missStep m s a f acc name).2.1, e ∈ acc.2.1 ∨ missingName e = some name) := by
  have hpair : ∀ s2 : String, ((ship, s2) : String × String) ≠ (name, s) := by
    intro s2 hc
    exact hne (congrArg Prod.fst hc).symm
  unfold missStep
  dsimp only
  split
  · exact ⟨fun _ => rfl, fun _ => rfl, fun e he => Or.inl he⟩
  · split
    · exact ⟨fun _ => rfl, fun _ => rfl, fun e he => Or.inl he⟩
    · split
      · split
        · dsimp only
          refine ⟨fun s2 => upd_ne _ _ _ _ (hpair s2), fun s2 => ?_, fun e he => ?_⟩
          · exact shipAt_alUpd_setShip_ne _ _ _ _ _ _ (Or.inl hne.symm)
          · rcases List.mem_append.mp he with h1 | h1
            · exact Or.inl h1
            · right
              rw [List.mem_singleton.mp h1]
              rfl
        · dsimp only
          exact ⟨fun s2 => upd_ne _ _ _ _ (hpair s2), fun _ => rfl, fun e he => Or.inl he⟩
      · exact ⟨fun _ => rfl, fun _ => rfl, fun e he => Or.inl he⟩

theorem detectStep_absent_missing (mts : Ts) (system : String) (a : Nat) (acc : FssAcc)
    (sig : Signal) (ship : String) (hnm : ¬(sig.name = ship ∧ sig.sigType ≠ "FleetCarrier"))
    (s2 : String) :
    (detectStep mts system a acc sig).st.missing (ship, s2) = acc.st.missing (ship, s2) := by
  by_cases hft : sig.sigType = "FleetCarrier"
  · unfold detectStep
    dsimp only
    rw [if_neg (fun hc => hc.2 hft)]
    split <;> rfl
  · have hne : sig.name ≠ ship := fun hc => hnm ⟨hc, hft⟩
    have hpair : ((ship, s2) : String × String) ≠ (sig.name, system) := by
      intro hc
      exact hne (congrArg Prod.fst hc).symm
    unfold detectStep
    dsimp only
    repeat' first
    | rfl
    | exact upd_ne _ _ _ _ hpair
    | split

theorem detectStep_absent_status (mts : Ts) (system : String) (a : Nat) (acc : FssAcc)
    (sig : Signal) (ship : String) (hnm : ¬(sig.name = ship ∧ sig.sigType ≠ "FleetCarrier"))
    (s2 : String) :
    shipAt (detectStep mts system a acc sig).st.tracked s2 ship =
      shipAt acc.st.tracked s2 ship := by
  by_cases hft : sig.sigType = "FleetCarrier"
  · unfold detectStep
    dsimp only
    rw [if_neg (fun hc => hc.2 hft)]
    split <;> rfl
  · have hne : sig.name ≠ ship := fun hc => hnm ⟨hc, hft⟩
    unfold detectStep
    dsimp only
    repeat' first
    | rfl
    | exact shipAt_alUpd_setShip_ne _ _ _ _ _ _ (Or.inl hne.symm)
    | split

theorem detectStep_absent_found (mts : Ts) (system : String) (a : Nat) (acc : FssAcc)
    (sig : Signal) (ship : String) (hnm : ¬(sig.name = ship ∧ sig.sigType ≠ "FleetCarrier"))
    (hnf : ship ∉ acc.found) : ship ∉ (detectStep mts system a acc sig).found := by
  by_cases hft : sig.sigType = "FleetCarrier"
  · unfold detectStep
    dsimp only
    rw [if_neg (fun hc => hc.2 hft)]
    split <;> exact hnf
  · have hne : sig.name ≠ ship := fun hc => hnm ⟨hc, hft⟩
    unfold detectStep
    dsimp only
    repeat' first
    | exact hnf
    | exact fun hc => (List.mem_append.mp hc).elim hnf
        (fun h1 => hne (List.mem_singleton.mp h1).symm)
    | split

theorem detectStep_events (mts : Ts) (system : String) (a : Nat) (acc : FssAcc)
    (sig : Signal) (e : Event) (he : e ∈ (detectStep mts system a acc sig).events) :
    e ∈ acc.events ∨ missingName e = none := by
  revert he
  unfold detectStep
  dsimp only
  repeat' first
  | exact fun he => Or.inl he
  | exact fun he => (List.mem_append.mp he).elim Or.inl
      (fun h1 => Or.inr (by rw [List.mem_singleton.mp h1]; rfl))
  | split

theorem detectFold_absent_missing (mts : Ts) (system : String) (a : Nat) (sigs : List Signal)
    (acc : FssAcc) (ship : String)
    (hnm : ∀ sig ∈ sigs, ¬(sig.name = ship ∧ sig.sigType ≠ "FleetCarrier")) (s2 : String) :
    (sigs.foldl (detectStep mts system a) acc).st.missing (ship, s2) =
      acc.st.missing (ship, s2) := by
  induction sigs generalizing acc with
  | nil => rfl
  | cons sig rest ih =>
    rw [List.foldl_cons]
    rw [ih _ (fun x hx => hnm x (List.mem_cons_of_mem sig hx))]
    exact detectStep_absent_missing mts system a acc sig ship
      (hnm sig (List.mem_cons_self sig rest)) s2

theorem detectFold_absent_status (mts : Ts) (system : String) (a : Nat) (sigs : List Signal)
    (acc : FssAcc) (ship : String)
    (hnm : ∀ sig ∈ sigs, ¬(sig.name = ship ∧ sig.sigType ≠ "FleetCarrier")) (s2 : String) :
    shipAt (sigs.foldl (detectStep mts system a) acc).st.tracked s2 ship =
      shipAt acc.st.tracked s2 ship := by
  induction sigs generalizing acc with
  | nil => rfl
  | cons sig rest ih =>
    rw [List.foldl_cons]
    rw [ih _ (fun x hx => hnm x (List.mem_cons_of_mem sig hx))]
    exact detectStep_absent_status mts system a acc sig ship
      (hnm sig (List.mem_cons_self sig rest)) s2

theorem detectFold_absent_found (mts : Ts) (system : String) (a : Nat) (sigs : List Signal)
    (acc : FssAcc) (ship : String)
    (hnm : ∀ sig ∈ sigs, ¬(sig.name = ship ∧ sig.sigType ≠ "FleetCarrier"))
    (hnf : ship ∉ acc.found) : ship ∉ (sigs.foldl (detectStep mts system a) acc).found := by
  induction sigs generalizing acc with
  | nil => exact hnf
  | cons sig rest ih =>
    rw [List.foldl_cons]
    exact ih _ (fun x hx => hnm x (List.mem_cons_of_mem sig hx))
      (detectStep_absent_found mts system a acc sig ship
        (hnm sig (List.mem_cons_self sig rest)) hnf)

theorem detectFold_events (mts : Ts) (system : String) (a : Nat) (sigs : List Signal)
    (acc : FssAcc) (e : Event) (he : e ∈ (sigs.foldl (detectStep mts system a) acc).events) :
    e ∈ acc.events ∨ missingName e = none := by
  induction sigs generalizing acc with
  | nil => exact Or.inl he
  | cons sig rest ih =>
    rw [List.foldl_cons] at he
    rcases ih _ he with h1 | h1
    · exact detectStep_events mts system a acc sig e h1
    · exact Or.inr h1

theorem missFold_absorbed (T : Ts) (S : String) (A : Nat) (fnd : List String)
    (init : St × List Event × List Notif) (ship : String) (hship : ship ∈ shipNames)
    (hstat : (shipAt init.1.tracked S ship).isTimestamp = false) :
    (∀ s2, (shipNames.foldl (missStep T S A fnd) init).1.missing (ship, s2) =
        init.1.missing (ship, s2)) ∧
    (∀ e ∈ (shipNames.foldl (missStep T S A fnd) init).2.1,
        e ∈ init.2.1 ∨ missingName e ≠ some ship) := by
  have hfold : shipNames.foldl (missStep T S A fnd) init =
      missStep T S A fnd (missStep T S A fnd init "Cygnus") "The Orion" := rfl
  simp only [shipNames, List.mem_cons, List.not_mem_nil, or_false, List.mem_singleton] at hship
  rcases hship with hc | hc
  · subst hc
    have h1 : missStep T S A fnd init "Cygnus" = init := missStep_no_ts T S A fnd init _ hstat
    rw [hfold, h1]
    obtain ⟨hm, _, hev⟩ := missStep_other T S A fnd init "The Orion" "Cygnus" (by decide)
    refine ⟨hm, fun e he => ?_⟩
    rcases hev e he with h2 | h2
    · exact Or.inl h2
    · refine Or.inr ?_
      rw [h2]
      decide
  · subst hc
    obtain ⟨hm1, hs1, hev1⟩ := missStep_other T S A fnd init "Cygnus" "The Orion" (by decide)
    have h2 : missStep T S A fnd (missStep T S A fnd init "Cygnus") "The Orion" =
        missStep T S A fnd init "Cygnus" := by
      refine missStep_no_ts T S A fnd _ _ ?_
      rw [hs1 S]
      exact hstat
    rw [hfold, h2]
    refine ⟨hm1, fun e he => ?_⟩
    rcases hev1 e he with h3 | h3
    · exact Or.inl h3
    · refine Or.inr ?_
      rw [h3]
      decide

theorem detectStep_match (mts : Ts) (S : String) (a : Nat) (acc : FssAcc) (sig : Signal)
    (hship : sig.name ∈ shipNames) (hft : sig.sigType ≠ "FleetCarrier")
    (hmem : (alGet acc.st.tracked S).isSome = true) :
    (detectStep mts S a acc sig).st.missing (sig.name, S) = none ∧
    shipAt (detectStep mts S a acc sig).st.tracked S sig.name =
      SigStatus.ts (sig.timestamp.getD mts) ∧
    sig.name ∈ (detectStep mts S a acc sig).found ∧
    (alGet (detectStep mts S a acc sig).st.tracked S).isSome = true := by
  obtain ⟨t0, ht0⟩ := Option.isSome_iff_exists.mp hmem
  unfold detectStep
  dsimp only
  rw [if_pos (⟨hship, hft⟩ : sig.name ∈ shipNames ∧ sig.sigType ≠ "FleetCarrier")]
  rw [if_neg (fun hc => hft hc.2 :
    ¬((alGet acc.st.tracked S).isSome = true ∧ sig.sigType = "FleetCarrier"))]
  rw [if_pos hmem]
  dsimp only
  refine ⟨upd_self _ _ _, ?_, ?_, ?_⟩
  · exact shipAt_alUpd_setShip_self _ _ _ _ t0 hship ht0
  · split
    · rename_i hin
      exact hin
    · exact List.mem_append.mpr (Or.inr (List.mem_singleton.mpr rfl))
  · rw [alGet_isSome_alUpd]
    exact hmem

theorem fss_absorbed (now : Ts) (st : St) (m : MsgBody) (ship : String)
    (hship : ship ∈ shipNames)
    (hstat : statusOf st m.starSystem ship = SigStatus.signalMissing)
    (habs : AbsentScan ship m.starSystem (now, m)) :
    (processFssSignals now st m).1.missing (ship, m.starSystem) =
      st.missing (ship, m.starSystem) ∧
    ∀ e ∈ (processFssSignals now st m).2.1, missingName e ≠ some ship := by
  obtain ⟨hSS, haddr, hsigs, hnosig, hfresh⟩ := habs
  unfold processFssSignals
  dsimp only
  by_cases hempty : m.starSystem = ""
  · rw [if_pos (Or.inl hempty)]
    exact ⟨rfl, fun e he => absurd he (List.not_mem_nil e)⟩
  · rw [if_neg (fun hc => hc.elim hempty haddr)]
    rw [if_neg (not_lt.mpr hfresh)]
    rw [if_neg hsigs]
    dsimp only
    have hfm : ∀ s2, (m.signals.foldl
        (detectStep (m.timestamp.getD now) m.starSystem m.systemAddress)
        ⟨{ st with signalsChecked := st.signalsChecked + m.signals.length }, [], 0, [], []⟩).st.missing
          (ship, s2) = st.missing (ship, s2) :=
      fun s2 => detectFold_absent_missing _ _ _ m.signals _ ship hnosig s2
    have hfs : shipAt (m.signals.foldl
        (detectStep (m.timestamp.getD now) m.starSystem m.systemAddress)
        ⟨{ st with signalsChecked := st.signalsChecked + m.signals.length }, [], 0, [], []⟩).st.tracked
          m.starSystem ship = SigStatus.signalMissing :=
      (detectFold_absent_status _ _ _ m.signals _ ship hnosig m.starSystem).trans hstat
    have hfe : ∀ e ∈ (m.signals.foldl
        (detectStep (m.timestamp.getD now) m.starSystem m.systemAddress)
        ⟨{ st with signalsChecked := st.signalsChecked + m.signals.length }, [], 0, [], []⟩).events,
          missingName e = none :=
      fun e he => (detectFold_events _ _ _ m.signals _ e he).resolve_left
        (fun hc => absurd hc (List.not_mem_nil e))
    obtain ⟨hm, hev⟩ := missFold_absorbed (m.timestamp.getD now) m.starSystem m.systemAddress
      (m.signals.foldl (detectStep (m.timestamp.getD now) m.starSystem m.systemAddress)
        ⟨{ st with signalsChecked := st.signalsChecked + m.signals.length }, [], 0, [], []⟩).found
      ((m.signals.foldl (detectStep (m.timestamp.getD now) m.starSystem m.systemAddress)
          ⟨{ st with signalsChecked := st.signalsChecked + m.signals.length }, [], 0, [], []⟩).st,
       (m.signals.foldl (detectStep (m.timestamp.getD now) m.starSystem m.systemAddress)
          ⟨{ st with signalsChecked := st.signalsChecked + m.signals.length }, [], 0, [], []⟩).events,
       (m.signals.foldl (detectStep (m.timestamp.getD now) m.starSystem m.systemAddress)
          ⟨{ st with signalsChecked := st.signalsChecked + m.signals.length }, [], 0, [], []⟩).notifs)
      ship hship (by rw [hfs]; rfl)
    refine ⟨?_, ?_⟩
    · repeat' first
      | exact (hm m.starSystem).trans (hfm m.starSystem)
      | exact hfm m.starSystem
      | split
    · intro e
      split
      · intro he
        rcases hev e he with h1 | h1
        · intro hc
          rw [hfe e h1] at hc
          exact Option.noConfusion hc
        · exact h1
      · intro he
        intro hc
        rw [hfe e he] at hc
        exact Option.noConfusion hc

theorem missFold_detected (T : Ts) (S : String) (A : Nat) (fnd : List String)
    (init : St × List Event × List Notif) (ship : String) (hship : ship ∈ shipNames)
    (hf : ship ∈ fnd) :
    (∀ s2, (shipNames.foldl (missStep T S A fnd) init).1.missing (ship, s2) =
        init.1.missing (ship, s2)) ∧
    (∀ s2, shipAt (shipNames.foldl (missStep T S A fnd) init).1.tracked s2 ship =
        shipAt init.1.tracked s2 ship) := by
  have hfold : shipNames.foldl (missStep T S A fnd) init =
      missStep T S A fnd (missStep T S A fnd init "Cygnus") "The Orion" := rfl
  simp only [shipNames, List.mem_cons, List.not_mem_nil, or_false, List.mem_singleton] at hship
  rcases hship with hc | hc
  · subst hc
    have h1 : missStep T S A fnd init "Cygnus" = init := missStep_found T S A fnd init _ hf
    rw [hfold, h1]
    obtain ⟨hm, hs, _⟩ := missStep_other T S A fnd init "The Orion" "Cygnus" (by decide)
    exact ⟨hm, hs⟩
  · subst hc
    obtain ⟨hm1, hs1, _⟩ := missStep_other T S A fnd init "Cygnus" "The Orion" (by decide)
    have h2 : missStep T S A fnd (missStep T S A fnd init "Cygnus") "The Orion" =
        missStep T S A fnd init "Cygnus" :=
      missStep_found T S A fnd _ _ hf
    rw [hfold, h2]
    exact ⟨hm1, hs1⟩

theorem fss_detect_restore (now : Ts) (st : St) (m : MsgBody) (sig : Signal)
    (hship : sig.name ∈ shipNames) (hS : m.starSystem ≠ "")
    (hmem : (alGet st.tracked m.starSystem).isSome = true)
    (haddr : m.systemAddress ≠ 0) (hsig : m.signals = [sig])
    (hft : sig.sigType ≠ "FleetCarrier")
    (hfresh : |now - m.timestamp.getD now| ≤ 600) :
    (processFssSignals now st m).1.missing (sig.name, m.starSystem) = none ∧
    statusOf (processFssSignals now st m).1 m.starSystem sig.name =
      SigStatus.ts (sig.timestamp.getD (m.timestamp.getD now)) := by
  unfold processFssSignals
  dsimp only
  rw [if_neg (fun hc => hc.elim hS haddr)]
  rw [if_neg (not_lt.mpr hfresh)]
  rw [hsig]
  rw [if_neg (fun hc => List.noConfusion hc)]
  dsimp only
  simp only [List.foldl_cons, List.foldl_nil]
  obtain ⟨hdm, hds, hdf, hdmem⟩ := detectStep_match (m.timestamp.getD now) m.starSystem
    m.systemAddress ⟨{ st with signalsChecked := st.signalsChecked + [sig].length }, [], 0, [], []⟩
    sig hship hft hmem
  rw [if_pos hdmem]
  obtain ⟨hm, hs⟩ := missFold_detected (m.timestamp.getD now) m.starSystem m.systemAddress _ _
    sig.name hship hdf
  split
  · refine ⟨(hm m.starSystem).trans hdm, ?_⟩
    show (shipAt _ m.starSystem sig.name) = _
    refine ((shipAt_alUpd _ _ _ m.starSystem sig.name ?_).trans
      ((hs m.starSystem).trans hds))
    exact fun t => rfl
  · exact ⟨(hm m.starSystem).trans hdm, (hs m.starSystem).trans hds⟩


/-- C10 (implicit: missing-episode absorption). -/
theorem c10_missing_absorption :
    (∀ (now : Ts) (st : St) (m : MsgBody) (ship : String),
        ship ∈ shipNames →
        statusOf st m.starSystem ship = SigStatus.signalMissing →
        AbsentScan ship m.starSystem (now, m) →
        (processFssSignals now st m).1.missing (ship, m.starSystem) =
          st.missing (ship, m.starSystem) ∧
        ∀ e ∈ (processFssSignals now st m).2.1, missingName e ≠ some ship) ∧
    (∀ (now : Ts) (st : St) (m : MsgBody) (sig : Signal),
        sig.name ∈ shipNames → m.starSystem ≠ "" →
        (alGet st.tracked m.starSystem).isSome = true →
        m.systemAddress ≠ 0 → m.signals = [sig] → sig.sigType ≠ "FleetCarrier" →
        |now - m.timestamp.getD now| ≤ 600 →
        (processFssSignals now st m).1.missing (sig.name, m.starSystem) = none ∧
        statusOf (processFssSignals now st m).1 m.starSystem sig.name =
          SigStatus.ts (sig.timestamp.getD (m.timestamp.getD now))) ∧
    (∀ (msgs : List (Ts × RawMessage)) (name sys : String),
        ((runMessages initSt msgs).missing (name, sys)).getD 0 ≤ 5) :=
  ⟨fss_absorbed, fss_detect_restore,
   fun msgs name sys => (mb_runMessages msgs initSt mb_initSt name sys).1⟩

theorem c10_missing_absorption_witness :
    (processFssSignals 1400 c10St (c3Absent 1400)).1.missing ("Cygnus", "Nukamba") =
      c10St.missing ("Cygnus", "Nukamba") ∧
    ∀ e ∈ (processFssSignals 1400 c10St (c3Absent 1400)).2.1, missingName e ≠ some "Cygnus" :=
  c10_missing_absorption.1 1400 c10St (c3Absent 1400) "Cygnus" (by decide) (by decide)
    ⟨rfl, by decide, by decide, by decide, by decide⟩

theorem missStep_self_small (T : Ts) (S : String) (A : Nat) (fnd : List String)
    (acc : St × List Event × List Notif) (name : String) (t0 : Ts) (i : Nat)
    (hnf : name ∉ fnd) (hts : shipAt acc.1.tracked S name = SigStatus.ts t0)
    (hcnt : (acc.1.missing (name, S)).getD 0 = i) (hi : i + 1 < 5) :
    (missStep T S A fnd acc name).1.missing (name, S) = some (i + 1) ∧
    (missStep T S A fnd acc name).1.tracked = acc.1.tracked ∧
    (missStep T S A fnd acc name).2.1 = acc.2.1 := by
  have hget : ∃ tsys, alGet acc.1.tracked S = some tsys := by
    unfold shipAt at hts
    cases halg : alGet acc.1.tracked S with
    | none => rw [halg] at hts; exact SigStatus.noConfusion hts
    | some t => exact ⟨t, rfl⟩
  obtain ⟨tsys, hget⟩ := hget
  have hcur : tsys.getShip name = SigStatus.ts t0 := by
    unfold shipAt at hts
    rw [hget] at hts
    exact hts
  unfold missStep
  dsimp only
  rw [hget]
  dsimp only
  rw [if_neg hnf, hcur, if_pos (by rfl : (SigStatus.ts t0).isTimestamp = true), hcnt]
  rw [if_neg (by omega : ¬(5 ≤ i + 1))]
  exact ⟨upd_self _ _ _, rfl, rfl⟩

theorem missStep_self_flip (T : Ts) (S : String) (A : Nat) (fnd : List String)
    (acc : St × List Event × List Notif) (name : String) (t0 : Ts)
    (hname : name ∈ shipNames) (hnf : name ∉ fnd)
    (hts : shipAt acc.1.tracked S name = SigStatus.ts t0)
    (hcnt : (acc.1.missing (name, S)).getD 0 = 4) :
    (missStep T S A fnd acc name).1.missing (name, S) = some 5 ∧
    shipAt (missStep T S A fnd acc name).1.tracked S name = SigStatus.signalMissing ∧
    (missStep T S A fnd acc name).2.1 =
      acc.2.1 ++ [Event.megashipMissing name S A T (SigStatus.ts t0)] := by
  have hget : ∃ tsys, alGet acc.1.tracked S = some tsys := by
    unfold shipAt at hts
    cases halg : alGet acc.1.tracked S with
    | none => rw [halg] at hts; exact SigStatus.noConfusion hts
    | some t => exact ⟨t, rfl⟩
  obtain ⟨tsys, hget⟩ := hget
  have hcur : tsys.getShip name = SigStatus.ts t0 := by
    unfold shipAt at hts
    rw [hget] at hts
    exact hts
  unfold missStep
  dsimp only
  rw [hget]
  dsimp only
  rw [if_neg hnf, hcur, if_pos (by rfl : (SigStatus.ts t0).isTimestamp = true), hcnt]
  rw [if_pos (by omega : 5 ≤ 4 + 1)]
  dsimp only
  refine ⟨upd_self _ _ _, ?_, rfl⟩
  exact shipAt_alUpd_setShip_self _ _ _ _ tsys hname hget

theorem missStep_events_shape (T : Ts) (s : String) (A : Nat) (fnd : List String)
    (acc : St × List Event × List Notif) (name : String) :
    (missStep T s A fnd acc name).2.1 = acc.2.1 ∨
    ∃ cur, (missStep T s A fnd acc name).2.1 =
      acc.2.1 ++ [Event.megashipMissing name s A T cur] := by
  unfold missStep
  dsimp only
  split
  · exact Or.inl rfl
  · split
    · exact Or.inl rfl
    · split
      · split
        · exact Or.inr ⟨_, rfl⟩
        · exact Or.inl rfl
      · exact Or.inl rfl

theorem filter_missing_of_none (l : List Event) (ship : String)
    (h : ∀ e ∈ l, missingName e = none) :
    l.filter (fun e => decide (missingName e = some ship)) = [] := by
  rw [List.filter_eq_nil]
  intro e he
  simp [h e he]

theorem filter_missing_append_one (l : List Event) (ship other s : String) (A : Nat) (T : Ts)
    (cur : SigStatus) (hne : other ≠ ship) :
    (l ++ [Event.megashipMissing other s A T cur]).filter
      (fun e => decide (missingName e = some ship)) =
    l.filter (fun e => decide (missingName e = some ship)) := by
  rw [List.filter_append]
  have h1 : ([Event.megashipMissing other s A T cur]).filter
      (fun e => decide (missingName e = some ship)) = [] := by
    simp [missingName, hne]
  rw [h1, List.append_nil]

theorem filter_missing_append_self (l : List Event) (ship s : String) (A : Nat) (T : Ts)
    (cur : SigStatus) :
    (l ++ [Event.megashipMissing ship s A T cur]).filter
      (fun e => decide (missingName e = some ship)) =
    l.filter (fun e => decide (missingName e = some ship)) ++
      [Event.megashipMissing ship s A T cur] := by
  rw [List.filter_append]
  have h1 : ([Event.megashipMissing ship s A T cur]).filter
      (fun e => decide (missingName e = some ship)) =
      [Event.megashipMissing ship s A T cur] := by
    simp [missingName]
  rw [h1]

theorem missFold_bump (T : Ts) (S : String) (A : Nat) (fnd : List String)
    (init : St × List Event × List Notif) (ship : String) (t0 : Ts) (i : Nat)
    (hship : ship ∈ shipNames) (hnf : ship ∉ fnd)
    (hts : shipAt init.1.tracked S ship = SigStatus.ts t0)
    (hcnt : (init.1.missing (ship, S)).getD 0 = i) (hi : i ≤ 4) :
    (shipNames.foldl (missStep T S A fnd) init).1.missing (ship, S) = some (i + 1) ∧
    (i + 1 < 5 →
      shipAt (shipNames.foldl (missStep T S A fnd) init).1.tracked S ship = SigStatus.ts t0) ∧
    ((shipNames.foldl (missStep T S A fnd) init).2.1.filter
        (fun e => decide (missingName e = some ship))) =
      init.2.1.filter (fun e => decide (missingName e = some ship)) ++
        (if i + 1 = 5 then [Event.megashipMissing ship S A T (SigStatus.ts t0)] else []) := by
  have hship2 := hship
  simp only [shipNames, List.mem_cons, List.not_mem_nil, or_false, List.mem_singleton] at hship2
  rcases hship2 with hc | hc
  · -- ship = "Cygnus": the ship's own step runs first
    have hfoldc : shipNames.foldl (missStep T S A fnd) init =
        missStep T S A fnd (missStep T S A fnd init ship) "The Orion" := by rw [hc]; rfl
    have horc : "The Orion" ≠ ship := by rw [hc]; decide
    obtain ⟨hm2, hs2, _⟩ :=
      missStep_other T S A fnd (missStep T S A fnd init ship) "The Orion" ship horc
    rcases Nat.lt_or_ge (i + 1) 5 with h5 | h5
    · obtain ⟨sm, strk, sev⟩ := missStep_self_small T S A fnd init ship t0 i hnf hts hcnt h5
      have hstat1 : shipAt (missStep T S A fnd init ship).1.tracked S ship =
          SigStatus.ts t0 := by rw [strk]; exact hts
      rcases missStep_events_shape T S A fnd (missStep T S A fnd init ship) "The Orion"
        with hsh | ⟨cur, hsh⟩
      · rw [hfoldc]
        refine ⟨(hm2 S).trans sm, fun _ => (hs2 S).trans hstat1, ?_⟩
        rw [hsh, sev, if_neg (by omega : ¬(i + 1 = 5)), List.append_nil]
      · rw [hfoldc]
        refine ⟨(hm2 S).trans sm, fun _ => (hs2 S).trans hstat1, ?_⟩
        rw [hsh, sev, filter_missing_append_one _ _ _ _ _ _ _ horc]
        rw [if_neg (by omega : ¬(i + 1 = 5)), List.append_nil]
    · have hc4 : (init.1.missing (ship, S)).getD 0 = 4 := by omega
      obtain ⟨fm, fs, fe⟩ := missStep_self_flip T S A fnd init ship t0 hship hnf hts hc4
      have h45 : some (5 : Nat) = some (i + 1) := by
        have : i = 4 := by omega
        rw [this]
      rcases missStep_events_shape T S A fnd (missStep T S A fnd init ship) "The Orion"
        with hsh | ⟨cur, hsh⟩
      · rw [hfoldc]
        refine ⟨(hm2 S).trans (fm.trans h45), fun hlt => absurd hlt (by omega), ?_⟩
        rw [hsh, fe, filter_missing_append_self, if_pos (by omega : i + 1 = 5)]
      · rw [hfoldc]
        refine ⟨(hm2 S).trans (fm.trans h45), fun hlt => absurd hlt (by omega), ?_⟩
        rw [hsh, fe, filter_missing_append_one _ _ _ _ _ _ _ horc,
          filter_missing_append_self, if_pos (by omega : i + 1 = 5)]
  · -- ship = "The Orion": the other ship's step runs first
    have hfoldo : shipNames.foldl (missStep T S A fnd) init =
        missStep T S A fnd (missStep T S A fnd init "Cygnus") ship := by rw [hc]; rfl
    have hcoo : "Cygnus" ≠ ship := by rw [hc]; decide
    obtain ⟨hm1, hs1, _⟩ := missStep_other T S A fnd init "Cygnus" ship hcoo
    have hts1 : shipAt (missStep T S A fnd init "Cygnus").1.tracked S ship =
        SigStatus.ts t0 := (hs1 S).trans hts
    have hcnt1 : ((missStep T S A fnd init "Cygnus").1.missing (ship, S)).getD 0 = i := by
      rw [hm1 S]
      exact hcnt
    rcases missStep_events_shape T S A fnd init "Cygnus" with hsh1 | ⟨cur1, hsh1⟩
    · rcases Nat.lt_or_ge (i + 1) 5 with h5 | h5
      · obtain ⟨sm, strk, sev⟩ := missStep_self_small T S A fnd
          (missStep T S A fnd init "Cygnus") ship t0 i hnf hts1 hcnt1 h5
        have hstat1 : shipAt (missStep T S A fnd
            (missStep T S A fnd init "Cygnus") ship).1.tracked S ship =
            SigStatus.ts t0 := by rw [strk]; exact hts1
        rw [hfoldo]
        refine ⟨sm, fun _ => hstat1, ?_⟩
        rw [sev, hsh1, if_neg (by omega : ¬(i + 1 = 5)), List.append_nil]
      · have hc4 : ((missStep T S A fnd init "Cygnus").1.missing (ship, S)).getD 0 = 4 := by
          omega
        obtain ⟨fm, fs, fe⟩ := missStep_self_flip T S A fnd
          (missStep T S A fnd init "Cygnus") ship t0 hship hnf hts1 hc4
        have h45 : some (5 : Nat) = some (i + 1) := by
          have : i = 4 := by omega
          rw [this]
        rw [hfoldo]
        refine ⟨fm.trans h45, fun hlt => absurd hlt (by omega), ?_⟩
        rw [fe, hsh1, filter_missing_append_self, if_pos (by omega : i + 1 = 5)]
    · rcases Nat.lt_or_ge (i + 1) 5 with h5 | h5
      · obtain ⟨sm, strk, sev⟩ := missStep_self_small T S A fnd
          (missStep T S A fnd init "Cygnus") ship t0 i hnf hts1 hcnt1 h5
        have hstat1 : shipAt (missStep T S A fnd
            (missStep T S A fnd init "Cygnus") ship).1.tracked S ship =
            SigStatus.ts t0 := by rw [strk]; exact hts1
        rw [hfoldo]
        refine ⟨sm, fun _ => hstat1, ?_⟩
        rw [sev, hsh1, filter_missing_append_one _ _ _ _ _ _ _ hcoo,
          if_neg (by omega : ¬(i + 1 = 5)), List.append_nil]
      · have hc4 : ((missStep T S A fnd init "Cygnus").1.missing (ship, S)).getD 0 = 4 := by
          omega
        obtain ⟨fm, fs, fe⟩ := missStep_self_flip T S A fnd
          (missStep T S A fnd init "Cygnus") ship t0 hship hnf hts1 hc4
        have h45 : some (5 : Nat) = some (i + 1) := by
          have : i = 4 := by omega
          rw [this]
        rw [hfoldo]
        refine ⟨fm.trans h45, fun hlt => absurd hlt (by omega), ?_⟩
        rw [fe, hsh1, filter_missing_append_self, filter_missing_append_one _ _ _ _ _ _ _ hcoo,
          if_pos (by omega : i + 1 = 5)]

theorem fss_absent_bump (now : Ts) (st : St) (m : MsgBody) (ship : String) (t0 : Ts) (i : Nat)
    (hship : ship ∈ shipNames) (hSne : m.starSystem ≠ "")
    (hstat : statusOf st m.starSystem ship = SigStatus.ts t0)
    (hcnt : (st.missing (ship, m.starSystem)).getD 0 = i) (hi : i ≤ 4)
    (habs : AbsentScan ship m.starSystem (now, m)) :
    (processFssSignals now st m).1.missing (ship, m.starSystem) = some (i + 1) ∧
    (i + 1 < 5 → statusOf (processFssSignals now st m).1 m.starSystem ship = SigStatus.ts t0) ∧
    ((processFssSignals now st m).2.1.filter (fun e => decide (missingName e = some ship))) =
      (if i + 1 = 5 then [Event.megashipMissing ship m.starSystem m.systemAddress
        (m.timestamp.getD now) (SigStatus.ts t0)] else []) := by
  obtain ⟨hSS, haddr, hsigs, hnosig, hfresh⟩ := habs
  unfold processFssSignals
  dsimp only
  rw [if_neg (fun hc => hc.elim hSne haddr)]
  rw [if_neg (not_lt.mpr hfresh)]
  rw [if_neg hsigs]
  dsimp only
  have hfm : ∀ s2, (m.signals.foldl
      (detectStep (m.timestamp.getD now) m.starSystem m.systemAddress)
      ⟨{ st with signalsChecked := st.signalsChecked + m.signals.length }, [], 0, [], []⟩).st.missing
        (ship, s2) = st.missing (ship, s2) :=
    fun s2 => detectFold_absent_missing _ _ _ m.signals _ ship hnosig s2
  have hfs : shipAt (m.signals.foldl
      (detectStep (m.timestamp.getD now) m.starSystem m.systemAddress)
      ⟨{ st with signalsChecked := st.signalsChecked + m.signals.length }, [], 0, [], []⟩).st.tracked
        m.starSystem ship = SigStatus.ts t0 :=
    (detectFold_absent_status _ _ _ m.signals _ ship hnosig m.starSystem).trans hstat
  have hff : ship ∉ (m.signals.foldl
      (detectStep (m.timestamp.getD now) m.starSystem m.systemAddress)
      ⟨{ st with signalsChecked := st.signalsChecked + m.signals.length }, [], 0, [], []⟩).found :=
    detectFold_absent_found _ _ _ m.signals _ ship hnosig (List.not_mem_nil ship)
  have hfe : ∀ e ∈ (m.signals.foldl
      (detectStep (m.timestamp.getD now) m.starSystem m.systemAddress)
      ⟨{ st with signalsChecked := st.signalsChecked + m.signals.length }, [], 0, [], []⟩).events,
        missingName e = none :=
    fun e he => (detectFold_events _ _ _ m.signals _ e he).resolve_left
      (fun hc => absurd hc (List.not_mem_nil e))
  have hmem : (alGet (m.signals.foldl
      (detectStep (m.timestamp.getD now) m.starSystem m.systemAddress)
      ⟨{ st with signalsChecked := st.signalsChecked + m.signals.length }, [], 0, [], []⟩).st.tracked
        m.starSystem).isSome = true := by
    unfold shipAt at hfs
    cases halg : alGet (m.signals.foldl
        (detectStep (m.timestamp.getD now) m.starSystem m.systemAddress)
        ⟨{ st with signalsChecked := st.signalsChecked + m.signals.length }, [], 0, [], []⟩).st.tracked
          m.starSystem with
    | none => rw [halg] at hfs; exact SigStatus.noConfusion hfs
    | some t => rfl
  rw [if_pos hmem]
  obtain ⟨hbm, hbs, hbe⟩ := missFold_bump (m.timestamp.getD now) m.starSystem m.systemAddress
    (m.signals.foldl
      (detectStep (m.timestamp.getD now) m.starSystem m.systemAddress)
      ⟨{ st with signalsChecked := st.signalsChecked + m.signals.length }, [], 0, [], []⟩).found
    ((m.signals.foldl
      (detectStep (m.timestamp.getD now) m.starSystem m.systemAddress)
      ⟨{ st with signalsChecked := st.signalsChecked + m.signals.length }, [], 0, [], []⟩).st,
     (m.signals.foldl
      (detectStep (m.timestamp.getD now) m.starSystem m.systemAddress)
      ⟨{ st with signalsChecked := st.signalsChecked + m.signals.length }, [], 0, [], []⟩).events,
     (m.signals.foldl
      (detectStep (m.timestamp.getD now) m.starSystem m.systemAddress)
      ⟨{ st with signalsChecked := st.signalsChecked + m.signals.length }, [], 0, [], []⟩).notifs)
    ship t0 i hship hff hfs (by rw [hfm]; exact hcnt) hi
  split
  · refine ⟨hbm, fun hlt => ?_, ?_⟩
    · show shipAt _ m.starSystem ship = _
      refine (shipAt_alUpd _ _ _ m.starSystem ship ?_).trans (hbs hlt)
      exact fun t => rfl
    · rw [hbe, filter_missing_of_none _ _ hfe, List.nil_append]
  · refine ⟨hbm, fun hlt => hbs hlt, ?_⟩
    rw [hbe, filter_missing_of_none _ _ hfe, List.nil_append]

theorem c4_run (scans : List (Ts × MsgBody)) (st : St) (ship S : String) (t0 : Ts) (i : Nat)
    (hship : ship ∈ shipNames) (hSne : S ≠ "")
    (hstat : statusOf st S ship = SigStatus.ts t0)
    (hcnt : (st.missing (ship, S)).getD 0 = i) (hi : i ≤ 4)
    (habs : ∀ p ∈ scans, AbsentScan ship S p)
    (hlen : i + scans.length ≤ 5) :
    ((runFss st scans).1.missing (ship, S)).getD 0 = i + scans.length ∧
    (i + scans.length < 5 → statusOf (runFss st scans).1 S ship = SigStatus.ts t0) ∧
    (i + scans.length < 5 →
      (runFss st scans).2.1.filter (fun e => decide (missingName e = some ship)) = []) ∧
    (i + scans.length = 5 → ∃ a T2,
      (runFss st scans).2.1.filter (fun e => decide (missingName e = some ship)) =
        [Event.megashipMissing ship S a T2 (SigStatus.ts t0)]) := by
  induction scans generalizing st i with
  | nil =>
    refine ⟨hcnt, fun _ => hstat, fun _ => rfl, fun h5 => absurd h5 (by simp; omega)⟩
  | cons p rest ih =>
    obtain ⟨now, m⟩ := p
    have habs0 := habs (now, m) (List.mem_cons_self _ _)
    have hSm : m.starSystem = S := habs0.1
    have hrest : ∀ q ∈ rest, AbsentScan ship S q :=
      fun q hq => habs q (List.mem_cons_of_mem _ hq)
    subst hSm
    obtain ⟨hb1, hb2, hb3⟩ := fss_absent_bump now st m ship t0 i hship hSne hstat hcnt hi habs0
    rcases Nat.lt_or_ge (i + 1) 5 with h5 | h5
    · -- still below the threshold after this scan
      have ih2 := ih (processFssSignals now st m).1 (i + 1) (hb2 h5)
        (by rw [hb1]; rfl) (by omega) hrest (by simp at hlen ⊢; omega)
      obtain ⟨ih1, ihs, ihe, ihx⟩ := ih2
      have hlen2 : i + ((now, m) :: rest).length = (i + 1) + rest.length := by
        simp; omega
      refine ⟨?_, ?_, ?_, ?_⟩
      · show ((runFss (processFssSignals now st m).1 rest).1.missing (ship, m.starSystem)).getD 0 = _
        rw [ih1, hlen2]
      · intro hlt
        exact ihs (by omega)
      · intro hlt
        show ((processFssSignals now st m).2.1 ++
          (runFss (processFssSignals now st m).1 rest).2.1).filter
            (fun e => decide (missingName e = some ship)) = []
        rw [List.filter_append, hb3, if_neg (by omega : ¬(i + 1 = 5)),
          ihe (by omega), List.nil_append]
      · intro heq
        obtain ⟨a, T2, hx⟩ := ihx (by omega)
        refine ⟨a, T2, ?_⟩
        show ((processFssSignals now st m).2.1 ++
          (runFss (processFssSignals now st m).1 rest).2.1).filter
            (fun e => decide (missingName e = some ship)) = _
        rw [List.filter_append, hb3, if_neg (by omega : ¬(i + 1 = 5)), hx, List.nil_append]
    · -- this scan is the fifth consecutive absence
      have h45 : i + 1 = 5 := by omega
      have hrest0 : rest = [] := by
        simp at hlen
        exact List.length_eq_zero.mp (by omega)
      subst hrest0
      refine ⟨?_, ?_, ?_, ?_⟩
      · show (((processFssSignals now st m).1.missing (ship, m.starSystem))).getD 0 = _
        rw [hb1]
        simp
      · intro hlt
        simp at hlt
        omega
      · intro hlt
        simp at hlt
        omega
      · intro _
        refine ⟨m.systemAddress, m.timestamp.getD now, ?_⟩
        show ((processFssSignals now st m).2.1 ++ ([] : List Event)).filter
          (fun e => decide (missingName e = some ship)) = _
        rw [List.append_nil, hb3, if_pos h45]


/-- C4 (debounce monotonicity). -/
theorem c4_debounce_monotonic (st : St) (ship S : String) (t0 : Ts)
    (scans : List (Ts × MsgBody))
    (hship : ship ∈ shipNames) (hSne : S ≠ "")
    (hstat : statusOf st S ship = SigStatus.ts t0)
    (hm : st.missing (ship, S) = none)
    (habs : ∀ p ∈ scans, AbsentScan ship S p) :
    (scans.length < 5 →
      (runFss st scans).2.1.filter (fun e => decide (missingName e = some ship)) = []) ∧
    (scans.length = 5 → ∃ a T2,
      (runFss st scans).2.1.filter (fun e => decide (missingName e = some ship)) =
        [Event.megashipMissing ship S a T2 (SigStatus.ts t0)]) := by
  have hcnt : (st.missing (ship, S)).getD 0 = 0 := by rw [hm]; rfl
  constructor
  · intro hlt
    exact (c4_run scans st ship S t0 0 hship hSne hstat hcnt (by omega) habs
      (by omega)).2.2.1 (by omega)
  · intro heq
    exact (c4_run scans st ship S t0 0 hship hSne hstat hcnt (by omega) habs
      (by omega)).2.2.2 (by omega)

theorem c4_debounce_monotonic_witness :
    ((runFss c4St (c4Scans.take 4)).2.1.filter
        (fun e => decide (missingName e = some "Cygnus")) = []) ∧
    (∃ a T2, (runFss c4St c4Scans).2.1.filter
        (fun e => decide (missingName e = some "Cygnus")) =
      [Event.megashipMissing "Cygnus" "Nukamba" a T2 (SigStatus.ts 1000)]) := by
  constructor
  · exact (c4_debounce_monotonic c4St "Cygnus" "Nukamba" 1000 (c4Scans.take 4)
      (by decide) (by decide) (by decide) (by decide) (by decide)).1 (by decide)
  · exact (c4_debounce_monotonic c4St "Cygnus" "Nukamba" 1000 c4Scans
      (by decide) (by decide) (by decide) (by decide) (by decide)).2 (by decide)

/-! ### Claims C1, C5, C6 — the `set()`-valued commander counter

`eddn_listener.py:33-40` initialises every `"commanders"` field to
`set()` and nothing ever replaces it with a number, so each arithmetic
site in `cmdr_tracker.py` raises `TypeError` on first touch; the
exception propagates out of `process_fsd_jump` and is caught by the
dispatcher.  The theorems below evaluate the embedding at each claim's
failing input. -/

/-- C1 (code evaluated at the failing input): after the route-plan
Nukamba→Marfic, the fresh jump-confirmed into Marfic raises `TypeError`
at cmdr_tracker.py:284 (`set() + 1`) right after recording the arrival
key — no arrived_planned or departed event, no counter or jump-count
change, and the pending departure from Nukamba stays unresolved. -/
theorem c1_pairing_crash :
    (processFsdJumpT 5030 c1St (some "U1") c1Jump).2.2 = true ∧
    (processFsdJumpT 5030 c1St (some "U1") c1Jump).2.1 = [] ∧
    (processFsdJumpT 5030 c1St (some "U1") c1Jump).1.tracked = c1St.tracked ∧
    alGet (processFsdJumpT 5030 c1St (some "U1") c1Jump).1.pending ("Nukamba", "Marfic") =
      some [⟨5000, false, "U1"⟩] ∧
    alGet (processFsdJumpT 5030 c1St (some "U1") c1Jump).1.recentArrivals ("U1", "Marfic") =
      some 5030 := by
  refine ⟨by decide, by decide, by decide, by decide, by decide⟩

/-- C5 (code evaluated at the failing input): the first fresh arrival
records `recent_arrivals` and then raises `TypeError` at
cmdr_tracker.py:284 — `commander_count` is incremented zero times, not
once, and no event is emitted.  The recorded key still makes the
cross-uploader (same timestamp) and same-uploader (within 30 s)
duplicates return early with no mutation and no raise. -/
theorem c5_arrival_crash :
    (processFsdJumpT 5000 initSt (some "U1") c5Jump).2.2 = true ∧
    (processFsdJumpT 5000 initSt (some "U1") c5Jump).2.1 = [] ∧
    c5St1.tracked = initSt.tracked ∧
    alGet c5St1.recentArrivals ("U1", "Marfic") = some 5000 ∧
    (processFsdJumpT 5010 c5St1 (some "U2") c5Jump).2.2 = false ∧
    (processFsdJumpT 5010 c5St1 (some "U2") c5Jump).2.1 = [] ∧
    (processFsdJumpT 5010 c5St1 (some "U2") c5Jump).1.recentArrivals = c5St1.recentArrivals ∧
    (processFsdJumpT 5012 c5St1 (some "U1")
        { c5Jump with timestamp := some 5012 }).2.2 = false ∧
    (processFsdJumpT 5012 c5St1 (some "U1")
        { c5Jump with timestamp := some 5012 }).1.recentArrivals = c5St1.recentArrivals := by
  refine ⟨by decide, by decide, by decide, by decide, by decide, by decide, by decide,
    by decide, by decide⟩

/-- C6 (code evaluated at the failing input): the timeout sweep records
the auto key and then raises `TypeError` at cmdr_tracker.py:76
(`max(0, set() - 1)`) for the tracked origin — the entry is never marked
processed, nothing is decremented, and no departed_timeout event is
emitted. -/
theorem c6_timeout_crash :
    (processFsdJumpT 500 c6St none c6Jump).2.2 = true ∧
    (processFsdJumpT 500 c6St none c6Jump).2.1 = [] ∧
    (processFsdJumpT 500 c6St none c6Jump).1.tracked = c6St.tracked ∧
    (processFsdJumpT 500 c6St none c6Jump).1.pending =
      [(("Nukamba", "Zeta"), [⟨100, false, "U9"⟩])] ∧
    (processFsdJumpT 500 c6St none c6Jump).1.autoProcessed = [("Nukamba", 100)] := by
  refine ⟨by decide, by decide, by decide, by decide, by decide⟩

/-! ### Claim C9 — the commander count never exists

The listener's `set()` never becomes an integer: every site that would
write the field first performs arithmetic on the old value, which raises
on `set()`, so the field is `set()` in every reachable state and the
clamped decrements the claim describes are dead code. -/

theorem setShip_commanders (t : TrackedSystem) (n : String) (v : SigStatus) :
    (t.setShip n v).commanders = t.commanders := by
  unfold TrackedSystem.setShip
  split
  · rfl
  · split <;> rfl

theorem alUpd_of_alGet_none {α β : Type} [DecidableEq α] (m : List (α × β)) (k : α)
    (f : β → β) (h : alGet m k = none) : alUpd m k f = m := by
  induction m with
  | nil => rfl
  | cons p t ih =>
    obtain ⟨a, b⟩ := p
    unfold alGet at h
    by_cases h1 : a = k
    · simp [h1] at h
    · unfold alUpd
      simp only [h1, if_false, ite_false]
      rw [ih (by simpa [h1] using h)]

theorem commandersOf_pyset (tr : List (String × TrackedSystem)) (f : String)
    (h : ∀ p ∈ tr, p.2.commanders = Cmdr.pyset) (t0 : TrackedSystem)
    (hget : alGet tr f = some t0) : commandersOf tr f = Cmdr.pyset := by
  unfold commandersOf
  rw [hget]
  exact h (f, t0) (alGet_mem tr f t0 hget)

theorem ps_alUpd (tr : List (String × TrackedSystem)) (k : String)
    (f : TrackedSystem → TrackedSystem)
    (h : ∀ p ∈ tr, p.2.commanders = Cmdr.pyset)
    (hf : ∀ t, t.commanders = Cmdr.pyset → (f t).commanders = Cmdr.pyset) :
    ∀ p ∈ alUpd tr k f, p.2.commanders = Cmdr.pyset := by
  induction tr with
  | nil => intro p hp; cases hp
  | cons q rest ih =>
    obtain ⟨a, b⟩ := q
    intro p hp
    unfold alUpd at hp
    by_cases h1 : a = k
    · simp only [h1, if_true, ite_true] at hp
      rcases List.mem_cons.mp hp with h2 | h2
      · rw [h2]
        exact hf b (h (a, b) (List.mem_cons_self _ _))
      · exact h p (List.mem_cons_of_mem _ h2)
    · simp only [h1, if_false, ite_false] at hp
      rcases List.mem_cons.mp hp with h2 | h2
      · rw [h2]
        exact h (a, b) (List.mem_cons_self _ _)
      · exact ih (fun q hq => h q (List.mem_cons_of_mem _ hq)) p h2

theorem ps_cleanupDeps (now : Ts) (f t : String) (deps : List Dep)
    (tr : List (String × TrackedSystem)) (auto : List (String × Ts))
    (h : ∀ p ∈ tr, p.2.commanders = Cmdr.pyset) :
    ∀ p ∈ (cleanupDeps now f t deps tr auto).2.1, p.2.commanders = Cmdr.pyset := by
  induction deps generalizing tr auto with
  | nil => exact h
  | cons d rest ih =>
    unfold cleanupDeps
    dsimp only
    split
    · exact ih tr auto h
    · split
      · split
        · exact ih tr auto h
        · split
          · rename_i hhit
            split
            · exact h
            · rename_i c heq
              exfalso
              obtain ⟨t0, ht0⟩ := Option.isSome_iff_exists.mp hhit
              rw [commandersOf_pyset tr f h t0 ht0] at heq
              exact Option.noConfusion heq
          · exact ih tr _ h
      · exact ih tr auto h

theorem ps_cleanupPD (now : Ts) (pd : List ((String × String) × List Dep))
    (tr : List (String × TrackedSystem)) (auto : List (String × Ts))
    (h : ∀ p ∈ tr, p.2.commanders = Cmdr.pyset) :
    ∀ p ∈ (cleanupPD now pd tr auto).2.1, p.2.commanders = Cmdr.pyset := by
  induction pd generalizing tr auto with
  | nil => exact h
  | cons q rest ih =>
    obtain ⟨k, deps⟩ := q
    unfold cleanupPD
    dsimp only
    split
    · exact ps_cleanupDeps now k.1 k.2 deps tr auto h
    · exact ih _ _ (ps_cleanupDeps now k.1 k.2 deps tr auto h)

theorem ps_depSearch (auto : List (String × Ts)) (sysT : String) (ts : Ts)
    (ks : List String) (pd : List ((String × String) × List Dep))
    (tr : List (String × TrackedSystem))
    (h : ∀ p ∈ tr, p.2.commanders = Cmdr.pyset) :
    ∀ p ∈ (depSearch auto sysT ts ks pd tr).2.1, p.2.commanders = Cmdr.pyset := by
  induction ks generalizing pd with
  | nil => exact h
  | cons f rest ih =>
    unfold depSearch
    dsimp only
    split
    · exact ih pd
    · split
      · split
        · exact h
        · rename_i c heq
          cases ht0 : alGet tr f with
          | none =>
            rw [alUpd_of_alGet_none tr f _ ht0]
            exact h
          | some t0 =>
            exfalso
            rw [commandersOf_pyset tr f h t0 ht0] at heq
            exact Option.noConfusion heq
      · split
        · exact ih _
        · exact ih _

theorem ps_jumpDepartPhase (ts : Ts) (u : Option String) (nav : Option NavRoute)
    (sysT : String) (st : St) (evs : List Event)
    (h : ∀ p ∈ st.tracked, p.2.commanders = Cmdr.pyset) :
    ∀ p ∈ (jumpDepartPhase ts u nav sysT st evs).1.tracked, p.2.commanders = Cmdr.pyset := by
  unfold jumpDepartPhase
  dsimp only
  have h1 := ps_depSearch st.autoProcessed sysT ts (st.tracked.map (·.1)) st.pending st.tracked h
  split
  · exact h1
  · split
    · exact h1
    · split
      · exact h1
      · split
        · rename_i hguard
          split
          · exact h1
          · rename_i c heq
            exfalso
            obtain ⟨t0, ht0⟩ := Option.isSome_iff_exists.mp hguard.1
            rw [commandersOf_pyset _ _ h1 t0 ht0] at heq
            exact Option.noConfusion heq
        · split
          · exact h1
          · exact h1

theorem ps_processFsdJumpT (now : Ts) (st : St) (u : Option String) (m : MsgBody)
    (h : ∀ p ∈ st.tracked, p.2.commanders = Cmdr.pyset) :
    ∀ p ∈ (processFsdJumpT now st u m).1.tracked, p.2.commanders = Cmdr.pyset := by
  unfold processFsdJumpT
  dsimp only
  split
  · exact h
  · split
    · exact h
    · have h1 := ps_cleanupPD now st.pending st.tracked st.autoProcessed h
      split
      · exact h1
      · split
        · rename_i hsome
          split
          · exact h1
          · split
            · exact h1
            · split
              · exact h1
              · rename_i c heq
                exfalso
                obtain ⟨t0, ht0⟩ := Option.isSome_iff_exists.mp hsome
                rw [commandersOf_pyset _ _ h1 t0 ht0] at heq
                exact Option.noConfusion heq
        · exact ps_jumpDepartPhase _ _ _ _ _ _ h1

theorem ps_detectStep (msgTs : Ts) (system : String) (sysAddr : Nat) (acc : FssAcc)
    (sig : Signal) (h : ∀ p ∈ acc.st.tracked, p.2.commanders = Cmdr.pyset) :
    ∀ p ∈ (detectStep msgTs system sysAddr acc sig).st.tracked, p.2.commanders = Cmdr.pyset := by
  unfold detectStep
  dsimp only
  repeat' first
  | exact h
  | exact ps_alUpd _ _ _ h (fun t ht => by rw [setShip_commanders]; exact ht)
  | split

theorem ps_detectFold (msgTs : Ts) (system : String) (sysAddr : Nat) (sigs : List Signal)
    (acc : FssAcc) (h : ∀ p ∈ acc.st.tracked, p.2.commanders = Cmdr.pyset) :
    ∀ p ∈ (sigs.foldl (detectStep msgTs system sysAddr) acc).st.tracked,
      p.2.commanders = Cmdr.pyset := by
  induction sigs generalizing acc with
  | nil => exact h
  | cons sig rest ih =>
    rw [List.foldl_cons]
    exact ih _ (ps_detectStep msgTs system sysAddr acc sig h)

theorem ps_missStep (m : Ts) (s : String) (a : Nat) (f : List String)
    (acc : St × List Event × List Notif) (name : String)
    (h : ∀ p ∈ acc.1.tracked, p.2.commanders = Cmdr.pyset) :
    ∀ p ∈ (missStep m s a f acc name).1.tracked, p.2.commanders = Cmdr.pyset := by
  unfold missStep
  dsimp only
  repeat' first
  | exact h
  | exact ps_alUpd _ _ _ h (fun t ht => by rw [setShip_commanders]; exact ht)
  | split

theorem ps_missFold (names : List String) (m : Ts) (s : String) (a : Nat)
    (f : List String) (acc : St × List Event × List Notif)
    (h : ∀ p ∈ acc.1.tracked, p.2.commanders = Cmdr.pyset) :
    ∀ p ∈ (names.foldl (missStep m s a f) acc).1.tracked, p.2.commanders = Cmdr.pyset := by
  induction names generalizing acc with
  | nil => exact h
  | cons x xs ih =>
    rw [List.foldl_cons]
    exact ih _ (ps_missStep m s a f acc x h)

theorem ps_processFssSignals (now : Ts) (st : St) (m : MsgBody)
    (h : ∀ p ∈ st.tracked, p.2.commanders = Cmdr.pyset) :
    ∀ p ∈ (processFssSignals now st m).1.tracked, p.2.commanders = Cmdr.pyset := by
  unfold processFssSignals
  dsimp only
  split
  · exact h
  · split
    · exact h
    · split
      · exact h
      · split
        · split
          · refine ps_alUpd _ _ _ ?_ (fun t ht => ht)
            exact ps_missFold _ _ _ _ _ _ (ps_detectFold _ _ _ _ _ h)
          · exact ps_missFold _ _ _ _ _ _ (ps_detectFold _ _ _ _ _ h)
        · exact ps_detectFold _ _ _ _ _ h

theorem ps_processMessage (now : Ts) (st : St) (m : RawMessage)
    (h : ∀ p ∈ st.tracked, p.2.commanders = Cmdr.pyset) :
    ∀ p ∈ (processMessage now st m).1.tracked, p.2.commanders = Cmdr.pyset := by
  unfold processMessage dispatchWith
  dsimp only
  cases m.message with
  | none => exact h
  | some b =>
    dsimp only
    split
    · exact ps_processFssSignals now _ b h
    · split
      · split
        · exact ps_processFsdJumpT now _ _ b h
        · exact h
      · split
        · have := processNavRoute_tracked now
            { st with messagesProcessed := st.messagesProcessed + 1 } (cmdrIdOf m.header) b
          intro p hp
          rw [navHandler] at hp
          dsimp only at hp
          rw [this] at hp
          exact h p hp
        · exact h

theorem ps_runMessages (msgs : List (Ts × RawMessage)) (st : St)
    (h : ∀ p ∈ st.tracked, p.2.commanders = Cmdr.pyset) :
    ∀ p ∈ (runMessages st msgs).tracked, p.2.commanders = Cmdr.pyset := by
  induction msgs generalizing st with
  | nil => exact h
  | cons q rest ih =>
    obtain ⟨now, m⟩ := q
    exact ih _ (ps_processMessage now st m h)

/-- C9 (code evaluated against the failing initialisation): the program
never maintains an integer commander count at all.  The listener
initialises every `"commanders"` field to `set()`
(eddn_listener.py:33-40), every increment or decrement site raises
`TypeError` on it before assigning, so over every message sequence the
field remains `set()` — the clamped `max(0, · - 1)` decrements the claim
describes are dead code, and a fresh jump-confirmed into monitored
Marfic raises at the increment (cmdr_tracker.py:284) instead of
counting. -/
theorem c9_commanders_never_int :
    (∀ msgs : List (Ts × RawMessage),
      ((runMessages initSt msgs).tracked.all
        (fun p => decide (p.2.commanders = Cmdr.pyset))) = true) ∧
    (processFsdJumpT 5000 initSt (some "U1")
        { event := some "FSDJump", starSystem := "Marfic", systemAddress := 203174184124,
          timestamp := some 5000 }).2.2 = true := by
  constructor
  · intro msgs
    rw [List.all_eq_true]
    intro p hp
    exact decide_eq_true (ps_runMessages msgs initSt (by decide) p hp)
  · decide
